import Mathlib

/-!
Verification development for the trust-vault-snap repository.

The TypeScript sources are embedded shallowly: pure functions become Lean
functions on lists of bytes (List Nat, each entry < 256) and strings;
JavaScript BigInt arithmetic becomes Int/Nat arithmetic; fallible code
returns Except values; the stateful keyring becomes explicit state passing
over a World record using EStateM.  External libraries (elliptic,
ethereumjs-util, ecies-geth) and host calls (snap.request, fetch) are
modelled as oracle functions in an Env record or as scripted responses
inside the World, mirroring how the unit tests of the repository mock them.
-/

namespace TVS

/-- Hex digit character for a value below 16, as produced by JavaScript
Number.prototype.toString(16) and BigInt.prototype.toString(16)
(lowercase letters). -/
def hexDigitChar (d : Nat) : Char :=
  if d < 10 then Char.ofNat (48 + d) else Char.ofNat (87 + d)

/-- Whether a character is a hexadecimal digit accepted by the Node
Buffer hex decoder (0-9, a-f, A-F), stated on code points. -/
def isHexDigitChar (c : Char) : Bool :=
  (48 ≤ c.toNat && c.toNat ≤ 57) || (97 ≤ c.toNat && c.toNat ≤ 102) ||
    (65 ≤ c.toNat && c.toNat ≤ 70)

/-- Numeric value of a hexadecimal digit character (0 for anything else). -/
def hexCharVal (c : Char) : Nat :=
  if 48 ≤ c.toNat && c.toNat ≤ 57 then c.toNat - 48
  else if 97 ≤ c.toNat && c.toNat ≤ 102 then c.toNat - 87
  else if 65 ≤ c.toNat && c.toNat ≤ 70 then c.toNat - 55
  else 0

/-- Little-endian base-16 digits of a natural number, with explicit fuel so
that the definition is structural (fuel 256 covers every value below
16 ^ 256, far beyond the 256-bit values appearing in this code base). -/
def natToHexAux : Nat → Nat → List Nat
  | 0, _ => []
  | _ + 1, 0 => []
  | fuel + 1, m + 1 => ((m + 1) % 16) :: natToHexAux fuel ((m + 1) / 16)

/-- Characters of the JavaScript expression n.toString(16) for a
non-negative BigInt or Number n: lowercase hex, no leading zeros,
the single character 0 for the value zero. -/
def jsNatToHex (m : Nat) : List Char :=
  if m = 0 then ['0'] else ((natToHexAux 256 m).map hexDigitChar).reverse

/-- Characters of the JavaScript expression i.toString(16) for a BigInt i,
including the leading minus sign for negative values. -/
def intToHexJS (i : Int) : List Char :=
  if i < 0 then '-' :: jsNatToHex i.natAbs else jsNatToHex i.toNat

/-- JavaScript String.prototype.padStart(n, c): pad on the left up to
length n; a string already at least n long is returned unchanged. -/
def jsPadStart (n : Nat) (c : Char) (cs : List Char) : List Char :=
  if n ≤ cs.length then cs else List.replicate (n - cs.length) c ++ cs

/-- Node Buffer.from(string, hex): decode hexadecimal pairs from the left
and stop at the first pair containing a non-hex character; a dangling
final character is dropped. -/
def jsHexDecode : List Char → List Nat
  | c1 :: c2 :: rest =>
    if isHexDigitChar c1 && isHexDigitChar c2 then
      (hexCharVal c1 * 16 + hexCharVal c2) :: jsHexDecode rest
    else []
  | _ => []

/-- Big-endian numeric value of a byte list; for byte lists this models the
JavaScript expression BigInt(0x + buf.toString(hex)). -/
def bytesToNat (bs : List Nat) : Nat :=
  bs.foldl (fun a b => a * 256 + b) 0

/-- Big-endian value of a hex character list. -/
def hexValBE (cs : List Char) : Nat :=
  cs.foldl (fun a c => a * 16 + hexCharVal c) 0

/-- Characters of Buffer.prototype.toString(hex): two lowercase hex digits
per byte. -/
def bytesToHexChars (bs : List Nat) : List Char :=
  (bs.map (fun b => [hexDigitChar (b / 16 % 16), hexDigitChar (b % 16)])).flatten

/-- Buffer.prototype.toString(hex) as a Lean String. -/
def bytesToHex (bs : List Nat) : String :=
  String.mk (bytesToHexChars bs)

/-- ASCII lowercase of one character, the effect of
String.prototype.toLowerCase on the hex addresses this code handles. -/
def jsCharToLower (c : Char) : Char :=
  if 65 ≤ c.toNat && c.toNat ≤ 90 then Char.ofNat (c.toNat + 32) else c

/-- JavaScript String.prototype.toLowerCase restricted to ASCII, which is
all the code applies it to (hex addresses). -/
def jsToLower (s : String) : String := String.mk (s.data.map jsCharToLower)

/-- JavaScript String.prototype.startsWith, over character lists. -/
def jsStartsWith (s pre : String) : Bool := List.isPrefixOf pre.data s.data

/-- JavaScript String.prototype.slice(n), over character lists. -/
def jsDrop (s : String) (n : Nat) : String := String.mk (s.data.drop n)

/-- The add0x helper of the metamask utils package: prefix 0x unless the
string already starts with 0x or 0X. -/
def add0x (s : String) : String :=
  if jsStartsWith s "0x" then s
  else if jsStartsWith s "0X" then "0x" ++ jsDrop s 2
  else "0x" ++ s

/-- The remove0x helper of the metamask utils package. -/
def remove0x (s : String) : String :=
  if jsStartsWith s "0x" then jsDrop s 2 else s

/-- Substring containment on character lists. -/
def listContainsSub (pat : List Char) : List Char → Bool
  | [] => pat.isEmpty
  | c :: rest => List.isPrefixOf pat (c :: rest) || listContainsSub pat rest

/-- JavaScript String.prototype.includes. -/
def jsIncludes (s pat : String) : Bool := listContainsSub pat.data s.data

/-- The secp256k1 group order constant EC_GROUP_ORDER of cryptography.ts. -/
def EC_GROUP_ORDER : Nat :=
  0xfffffffffffffffffffffffffffffffebaaedce6af48a03bbfd25e8cd0364141

/-- Embedding of adjustSignatureSValue of cryptography.ts: low-s
normalisation of the 32-byte s slice of a raw signature, including the
BigInt-to-hex-to-Buffer round trip of the source. -/
def adjustSignatureSValue (sVal : List Nat) : List Nat :=
  if sVal.length < 32 then sVal
  else
    let sNat := bytesToNat sVal
    let groupOrderDiv2 := EC_GROUP_ORDER / 2
    if (sNat : Int) - (groupOrderDiv2 : Int) ≤ 0 then sVal
    else jsHexDecode (jsPadStart 64 '0' (intToHexJS ((EC_GROUP_ORDER : Int) - (sNat : Int))))

/-- Embedding of numToHexBuffer of util.ts: hex string of the number,
left-padded with one zero when of odd length, decoded back to bytes. -/
def numToHexBuffer (input : Nat) : List Nat :=
  let hexStr := jsNatToHex input
  let paddedStr := jsPadStart (hexStr.length + hexStr.length % 2) '0' hexStr
  jsHexDecode paddedStr

/-- Oracle interface for the external ethereumjs-util primitives used by
retrieveV: ecrecover (which may throw on malformed inputs, hence Except)
and pubToAddress (keccak of the public key, last 20 bytes).  Their
internals live outside this repository; the theorems quantify over them. -/
structure ECApi where
  ecrecover : List Nat → Nat → List Nat → List Nat → Except String (List Nat)
  pubToAddress : List Nat → List Nat

/-- Embedding of retrieveV of cryptography.ts: trial recovery with v 27
then v 28, comparing the lowercased 0x-prefixed candidate addresses
against the lowercased claimed address. -/
def retrieveV (api : ECApi) (digest rValue sValue : List Nat) (address : String) :
    Except String (List Nat) := do
  let recovered27pub ← api.ecrecover digest 27 rValue sValue
  let recovered28pub ← api.ecrecover digest 28 rValue sValue
  let recovered27address := add0x (jsToLower (bytesToHex (api.pubToAddress recovered27pub)))
  let recovered28address := add0x (jsToLower (bytesToHex (api.pubToAddress recovered28pub)))
  if recovered27address = jsToLower address then pure (numToHexBuffer 27)
  else if recovered28address = jsToLower address then pure (numToHexBuffer 28)
  else Except.error "cannot retrieve v signature value"

/-- Embedding of getAdjustedSignature of cryptography.ts: length check,
slice r and s, low-s adjust s, recover v by trial, and emit the signature
as 0x plus the hex of r, s and v. -/
def getAdjustedSignature (api : ECApi) (digest signature : List Nat) (address : String) :
    Except String String :=
  if signature.length ≠ 64 then
    Except.error ("Signature has invalid length: " ++ toString signature.length)
  else
    match retrieveV api digest (signature.take 32)
        (adjustSignatureSValue ((signature.drop 32).take 32)) address with
    | Except.error e => Except.error e
    | Except.ok vValue =>
      Except.ok ("0x" ++ bytesToHex (signature.take 32) ++
        bytesToHex (adjustSignatureSValue ((signature.drop 32).take 32)) ++ bytesToHex vValue)

/-- The content of claim C5 at a single 64-byte raw signature: the s value
emitted by the codec is at most half the group order, equals
curveOrder minus s when s exceeds half the order and is unchanged
otherwise, and the r slice is passed through untouched by the adjustment
(the claim about the emitted r is stated on getAdjustedSignature in the
theorems). -/
def claimC5At (sig : List Nat) : Prop :=
  bytesToNat (adjustSignatureSValue ((sig.drop 32).take 32)) ≤ EC_GROUP_ORDER / 2 ∧
    (EC_GROUP_ORDER / 2 < bytesToNat ((sig.drop 32).take 32) →
      (bytesToNat (adjustSignatureSValue ((sig.drop 32).take 32)) : Int) =
        (EC_GROUP_ORDER : Int) - (bytesToNat ((sig.drop 32).take 32) : Int)) ∧
    (¬ EC_GROUP_ORDER / 2 < bytesToNat ((sig.drop 32).take 32) →
      adjustSignatureSValue ((sig.drop 32).take 32) = (sig.drop 32).take 32)

/-- The TrustApiToken record of types.ts: an opaque encrypted session
token blob. -/
structure TrustApiToken where
  enc : String
  iv : String
  tag : String
deriving DecidableEq, Repr

/-- The Credentials pair of types.ts passed to the GraphQL client. -/
structure Credentials where
  trustId : String
  token : TrustApiToken
deriving DecidableEq, Repr

/-- The TrustApiConfiguration record of types.ts. -/
structure TrustApiConfiguration where
  url : String
  apiKey : String
  trustId : String
  token : TrustApiToken
deriving DecidableEq, Repr

/-- The RequestConfiguration record of types.ts. -/
structure RequestConfiguration where
  trustApiConfiguration : TrustApiConfiguration
  clientInfo : String
deriving DecidableEq, Repr

/-- The SnapMode enum of types.ts. -/
inductive SnapMode
  | Basic
  | Enhanced
deriving DecidableEq, Repr

/-- The RequestStatus enum of types.ts. -/
inductive RequestStatus
  | Pending
  | Signed
  | Rejected
deriving DecidableEq, Repr

/-- The TrustVaultRequestStatus enum of types.ts (remote status values). -/
inductive TrustVaultRequestStatus
  | Pending
  | Queued
  | Signed
  | Submitted
  | Cancelled
  | Blocked
  | Errored
deriving DecidableEq, Repr

/-- The EvmTransaction record of types.ts.  The fields named from, to,
data and type in the source are renamed fromAddr, toAddr, dataField and
typeField because the originals are Lean keywords. -/
structure EvmTransaction where
  nonce : String
  chainId : String
  maxFeePerGas : Option String
  maxPriorityFeePerGas : Option String
  gasLimit : String
  gasPrice : Option String
  fromAddr : String
  toAddr : String
  value : String
  dataField : String
  typeField : String
deriving DecidableEq, Repr

/-- Shape of the params array of a keyring request, one constructor per
signing method (the source casts the untyped params to these shapes). -/
inductive ReqParams
  | txParams (t : EvmTransaction)
  | personal (message address : String)
  | typed (address : String) (message : String)
deriving DecidableEq, Repr

/-- The slice of a KeyringAccount relevant to this core: its id, address
and the trustId stored in its options (none models an absent or
non-string options.trustId). -/
structure KeyringAccount where
  id : String
  address : String
  trustId : Option String
deriving DecidableEq, Repr

/-- An incoming KeyringRequest: id, account reference, method and params
(request.request.method and request.request.params are flattened). -/
structure KeyringRequest where
  id : String
  account : String
  method : String
  params : ReqParams
deriving DecidableEq, Repr

/-- The TrustVaultRequest record of types.ts: a KeyringRequest plus the
remote request id and the local status. -/
structure TrustVaultRequest where
  id : String
  account : String
  method : String
  params : ReqParams
  trustVaultRequestId : String
  status : RequestStatus
deriving DecidableEq, Repr

/-- Lookup in a JavaScript string-keyed record modelled as an association
list (first binding wins; the code never creates duplicate keys). -/
def recFind {α : Type} (rs : List (String × α)) (k : String) : Option α :=
  match rs.find? (fun p => p.1 == k) with
  | some p => some p.2
  | none => none

/-- Assignment rec[k] = v on a record: replace the binding in place or
append a new one. -/
def recInsert {α : Type} (k : String) (v : α) : List (String × α) → List (String × α)
  | [] => [(k, v)]
  | p :: rest => if p.1 == k then (k, v) :: rest else p :: recInsert k v rest

/-- The delete rec[k] operation on a record. -/
def recErase {α : Type} (k : String) (rs : List (String × α)) : List (String × α) :=
  rs.filter (fun p => !(p.1 == k))

/-- The KeyringState record of types.ts. -/
structure KeyringState where
  trustApiConfiguration : Option TrustApiConfiguration
  accounts : List (String × KeyringAccount)
  requests : List (String × TrustVaultRequest)
  rpcUrls : List (String × String)
  trustIdToToken : List (String × TrustApiToken)
  mode : SnapMode
deriving DecidableEq, Repr

/-- The signedTransaction.transaction component of a transactionInfo
response (the unused transactionDigest is omitted). -/
structure SignedTx where
  r : String
  s : String
  v : String
deriving DecidableEq, Repr

/-- The TransactionInfoResponse record of types.ts; none for the
signedTransaction field models a null or absent object. -/
structure TransactionInfoResponse where
  signedTransaction : Option SignedTx
  status : TrustVaultRequestStatus
deriving DecidableEq, Repr

/-- The GetRequestResponse record of types.ts; none for signaturesRaw
models an absent signatures object. -/
structure GetRequestResponse where
  signaturesRaw : Option String
  status : TrustVaultRequestStatus
deriving DecidableEq, Repr

/-- The raw refreshAuthenticationTokens payload before the field checks in
graphQLRequest; each field may be absent (none) or empty. -/
structure TokenParts where
  enc : Option String
  iv : Option String
  tag : Option String
deriving DecidableEq, Repr

/-- Parsed data payload of a GraphQL response body, one constructor per
query shape the client reads. -/
inductive DataPayload
  | createResp (requestId : String)
  | txInfo (info : TransactionInfoResponse)
  | getReq (resp : GetRequestResponse)
  | refreshed (parts : TokenParts)
deriving DecidableEq, Repr

/-- One entry of the errors list of a GraphQL response; errorType is none
when absent or not a string. -/
structure GqlError where
  errorType : Option String
deriving DecidableEq, Repr

/-- A parsed GraphQL response body: optional errors list and optional data
object. -/
structure GqlBody where
  errors : Option (List GqlError)
  data : Option DataPayload
deriving DecidableEq, Repr

/-- Scripted outcome of one fetch call, mirroring how the unit tests mock
fetch: a transport failure, a non-2xx status, or a parsed body. -/
inductive ScriptEntry
  | netError (m : String)
  | badStatus (code : Nat)
  | ok (body : GqlBody)
deriving DecidableEq, Repr

/-- Scripted outcome of one eth_feeHistory proxy probe. -/
inductive ProbeResult
  | rpcError (m : String)
  | nonObject
  | objResp (hasProxyField proxyVal : Bool)
deriving DecidableEq, Repr

/-- User-facing dialogs and notifications emitted to the host. -/
inductive Notice
  | proxyDialog
  | invalidSessionDialog (trustId : String)
  | inAppNotify (message : String)
  | nativeNotify (message : String)
deriving DecidableEq, Repr

/-- Result payload carried by a request-approved keyring event. -/
inductive ApproveResult
  | vrs (v r s : String)
  | sigStr (s : String)
deriving DecidableEq, Repr

/-- Keyring events emitted to the host.  The events.ts module is not part
of the provided sources; modelled from the spec: events are emissions to
the external host, recorded here in an append-only log. -/
inductive KEvent
  | accountCreated (id : String)
  | accountDeleted (id : String)
  | requestApproved (id : String) (result : ApproveResult)
  | requestRejected (id : String)
deriving DecidableEq, Repr

/-- Ghost label distinguishing which call site performed a post: a
business GraphQL query or the token refresh query. -/
inductive PostKind
  | business
  | refreshCall
deriving DecidableEq, Repr

/-- Structured error values; each constructor stands for one distinct
thrown Error of the source (doc comments in the definitions name the
original message strings).  outOfFuel is a model artifact standing for
non-termination of the unbounded refresh recursion. -/
inductive Err
  | unreachable (m : String)
  | badStatus (code : Nat)
  | remoteError (errs : List GqlError)
  | refreshFailed (errs : List GqlError)
  | refreshIncomplete
  | jsTypeError (m : String)
  | unsupportedMethod (m : String)
  | unsupportedTxType (t : String)
  | proxyNotConfigured
  | chainIdHasNoRpcUrl (c : String)
  | accountNotFoundById (id : String)
  | accountNotFoundByAddress (a : String)
  | accountDoesNotExist (id : String)
  | requestDoesNotExist (id : String)
  | trustIdMissing
  | tokenNotFound (trustId : String)
  | noTrustApiConfiguration
  | missingTrustApiConfiguration
  | notImplemented
  | nameNotString
  | addressNotString
  | invalidEvmAddress (a : String)
  | addressInUse (a : String)
  | trustIdNotString
  | rpcCallFailed (m : String)
  | nonObjectProbeResponse
  | decryptError (m : String)
  | sigError (m : String)
  | outOfFuel
deriving DecidableEq, Repr

/-- The full mutable world: the in-memory keyring state, the
host-persisted state blob, the append-only notice and event logs, the
remaining fetch script, the ghost post trace, the remaining probe script
and the uuid supply. -/
structure World where
  mem : KeyringState
  persisted : KeyringState
  notices : List Notice
  events : List KEvent
  script : List ScriptEntry
  trace : List (PostKind × TrustApiToken)
  probeResults : List ProbeResult
  uuids : List String
deriving DecidableEq, Repr

/-- State-and-exception monad for the embedded code.  An error carries the
world at the throw point, exactly as a JavaScript exception leaves
already-performed mutations in place. -/
abbrev KM (α : Type) := EStateM Err World α

/-- An ECIES key pair as produced by generateEciesKeyPair. -/
structure EciesKeyPair where
  privateKey : List Nat
  publicKey : String
deriving DecidableEq, Repr

/-- Deterministic oracles for the external host and libraries: recursion
fuel for the client, version strings, the snap_getEntropy host call, the
elliptic key generator (private scalar and uncompressed public key hex as
functions of the entropy), ECIES decryption, the two hash constructions
and the ECDSA recovery oracle. -/
structure Env where
  fuel : Nat
  mmVersion : String
  snapVer : String
  entropyHex : String → String
  libPriv : List Nat → Nat
  libPubHex : List Nat → String
  decryptFn : List Nat → List Nat → Except String (List Nat)
  keccak : List Nat → List Nat
  eip712Hash : String → String → List Nat
  ecApi : ECApi

/-- Append an emitted keyring event to the event log.  The events.ts
module is absent from the sources; modelled from the spec: emitting an
event notifies the external host and has no other effect on this core. -/
def emitEvent (e : KEvent) : KM Unit := fun w =>
  EStateM.Result.ok () { w with events := w.events ++ [e] }

/-- Append a dialog or notification to the notice log. -/
def pushNotice (n : Notice) : KM Unit := fun w =>
  EStateM.Result.ok () { w with notices := w.notices ++ [n] }

/-- Embedding of post of graphql/client.ts, driven by the response script
(the unit tests mock fetch the same way): consume the next scripted
response; a transport failure throws the unreachable error, a non-ok
status throws the bad-status error, otherwise the parsed body is
returned.  The PostKind and token arguments are ghost instrumentation
recording which call site posted and with which token; the body string
built from the query is not modelled. -/
def postStep (k : PostKind) (tok : TrustApiToken) : KM GqlBody := fun w =>
  match w.script with
  | [] =>
    EStateM.Result.error (Err.unreachable "no scripted response")
      { w with trace := w.trace ++ [(k, tok)] }
  | ScriptEntry.netError m :: rest =>
    EStateM.Result.error (Err.unreachable m)
      { w with trace := w.trace ++ [(k, tok)], script := rest }
  | ScriptEntry.badStatus c :: rest =>
    EStateM.Result.error (Err.badStatus c)
      { w with trace := w.trace ++ [(k, tok)], script := rest }
  | ScriptEntry.ok body :: rest =>
    EStateM.Result.ok body { w with trace := w.trace ++ [(k, tok)], script := rest }

/-- The errors[0]?.errorType?.includes(INVALID_SESSION_TOKEN) test of
graphQLRequest. -/
def errorsSignalInvalidSession (errs : List GqlError) : Bool :=
  match errs.head? with
  | some e =>
    match e.errorType with
    | some t => jsIncludes t "INVALID_SESSION_TOKEN"
    | none => false
  | none => false

/-- Embedding of removeInvalidCredentials of graphql/client.ts: load the
persisted state, delete the token of the organisation, save. -/
def removeInvalidCredentials (trustId : String) : KM Unit := fun w =>
  EStateM.Result.ok ()
    { w with persisted :=
        { w.persisted with trustIdToToken := recErase trustId w.persisted.trustIdToToken } }

/-- The user-facing message of notifyInvalidSession of auth.tsx. -/
def invalidSessionMessage (trustId : String) : String :=
  "Organisation with TrustId " ++ trustId ++
    " and all associated accounts have been logged out. Please log in again by adding the snap to the organisation through Trust Vault Web."

/-- Embedding of notifyInvalidSession of auth.tsx: an alert dialog plus an
in-app and a native notification, appended to the notice log in order. -/
def notifyInvalidSession (trustId : String) : KM Unit := fun w =>
  EStateM.Result.ok ()
    { w with notices := w.notices ++
        [Notice.invalidSessionDialog trustId,
         Notice.inAppNotify (invalidSessionMessage trustId),
         Notice.nativeNotify (invalidSessionMessage trustId)] }

/-- Embedding of refreshCredentials of auth.tsx: load the persisted state,
replace the token of the organisation wholesale, save. -/
def refreshCredentials (trustId : String) (token : TrustApiToken) : KM Unit := fun w =>
  EStateM.Result.ok ()
    { w with persisted :=
        { w.persisted with trustIdToToken := recInsert trustId token w.persisted.trustIdToToken } }

/-- Embedding of refreshAuthToken of graphql/client.ts.  On an errors list
in the refresh response the stale credential is removed, the
session-invalidated notices are emitted and the refresh-failed error is
thrown; otherwise data.refreshAuthenticationTokens is returned (none
models the undefined value obtained when the field is missing; a missing
data object is a TypeError). -/
def refreshAuthToken (token : TrustApiToken) (trustId : String) : KM (Option TokenParts) := do
  let body ← postStep PostKind.refreshCall token
  match body.errors with
  | some errs => do
    removeInvalidCredentials trustId
    notifyInvalidSession trustId
    throw (Err.refreshFailed errs)
  | none =>
    match body.data with
    | none => throw (Err.jsTypeError "reading refreshAuthenticationTokens of undefined")
    | some (DataPayload.refreshed parts) => pure (some parts)
    | some _ => pure none

/-- JavaScript falsiness of an optional string: undefined and the empty
string are falsy. -/
def jsFalsyStr : Option String → Bool
  | none => true
  | some s => s.data.isEmpty

/-- The refreshed token object passed on to refreshCredentials and the
retry once all three fields were checked truthy. -/
def mkToken (parts : TokenParts) : TrustApiToken :=
  { enc := parts.enc.getD "", iv := parts.iv.getD "", tag := parts.tag.getD "" }

/-- Embedding of graphQLRequest of graphql/client.ts.  The recursion of
the source has no bound; the explicit fuel argument is a model artifact
making the definition total, and a run that exhausts it throws the
distinguished outOfFuel error.  The createQuery argument mirrors the
source signature; the produced query string is not modelled (the ghost
trace records the token each post used instead). -/
def graphQLRequest : Nat → (TrustApiToken → String) → RequestConfiguration → Credentials →
    KM GqlBody
  | 0, _, _, _ => throw Err.outOfFuel
  | fuel + 1, createQuery, config, credentials => do
    let body ← postStep PostKind.business credentials.token
    match body.errors with
    | none => pure body
    | some errs =>
      if errorsSignalInvalidSession errs then do
        let refreshedToken ← refreshAuthToken credentials.token credentials.trustId
        match refreshedToken with
        | none => throw (Err.jsTypeError "destructuring undefined refreshed token")
        | some parts =>
          if jsFalsyStr parts.enc || jsFalsyStr parts.iv || jsFalsyStr parts.tag then
            throw Err.refreshIncomplete
          else do
            refreshCredentials credentials.trustId (mkToken parts)
            graphQLRequest fuel createQuery config
              { trustId := credentials.trustId, token := mkToken parts }
      else throw (Err.remoteError errs)

/-- Embedding of createEip1559Transaction of graphql/client.ts (the query
string built by queries.ts is not modelled). -/
def createEip1559Transaction (env : Env) (config : RequestConfiguration)
    (credentials : Credentials) (_transaction : EvmTransaction) (_submit : Bool)
    (_rpcUrl : Option String) : KM String := do
  let response ← graphQLRequest env.fuel (fun _ => "createEIP1559Transaction") config credentials
  match response.data with
  | some (DataPayload.createResp requestId) => pure requestId
  | some _ => throw (Err.jsTypeError "reading requestId of undefined")
  | none => throw (Err.jsTypeError "reading createEIP1559Transaction of undefined")

/-- Embedding of createLegacyTransaction of graphql/client.ts. -/
def createLegacyTransaction (env : Env) (config : RequestConfiguration)
    (credentials : Credentials) (_transaction : EvmTransaction) (_submit : Bool)
    (_rpcUrl : Option String) : KM String := do
  let response ← graphQLRequest env.fuel (fun _ => "createEthereumTransaction") config credentials
  match response.data with
  | some (DataPayload.createResp requestId) => pure requestId
  | some _ => throw (Err.jsTypeError "reading requestId of undefined")
  | none => throw (Err.jsTypeError "reading createEthereumTransaction of undefined")

/-- Embedding of createSignTypedData of graphql/client.ts. -/
def createSignTypedData (env : Env) (config : RequestConfiguration)
    (credentials : Credentials) (_address : String) (_message : String) (_version : String)
    (_eciesPublicKey : String) : KM String := do
  let response ← graphQLRequest env.fuel (fun _ => "createEthSignTypedData") config credentials
  match response.data with
  | some (DataPayload.createResp requestId) => pure requestId
  | some _ => throw (Err.jsTypeError "reading requestId of undefined")
  | none => throw (Err.jsTypeError "reading createEthSignTypedData of undefined")

/-- Embedding of createPersonalSign of graphql/client.ts. -/
def createPersonalSign (env : Env) (config : RequestConfiguration)
    (credentials : Credentials) (_address : String) (_message : String)
    (_eciesPublicKey : String) : KM String := do
  let response ← graphQLRequest env.fuel (fun _ => "createEthPersonalSign") config credentials
  match response.data with
  | some (DataPayload.createResp requestId) => pure requestId
  | some _ => throw (Err.jsTypeError "reading requestId of undefined")
  | none => throw (Err.jsTypeError "reading createEthPersonalSign of undefined")

/-- Embedding of fetchTransactionInfo of graphql/client.ts. -/
def fetchTransactionInfo (env : Env) (config : RequestConfiguration)
    (credentials : Credentials) (_trustVaultRequestId : String) : KM TransactionInfoResponse := do
  let response ← graphQLRequest env.fuel (fun _ => "transactionInfo") config credentials
  match response.data with
  | some (DataPayload.txInfo info) => pure info
  | some _ => throw (Err.jsTypeError "transactionInfo payload shape")
  | none => throw (Err.jsTypeError "reading transactionInfo of undefined")

/-- Embedding of getRequest of graphql/client.ts (named clientGetRequest
here because the keyring also has a getRequest). -/
def clientGetRequest (env : Env) (config : RequestConfiguration)
    (credentials : Credentials) (_trustVaultRequestId : String) : KM GetRequestResponse := do
  let response ← graphQLRequest env.fuel (fun _ => "getRequest") config credentials
  match response.data with
  | some (DataPayload.getReq resp) => pure resp
  | some _ => throw (Err.jsTypeError "getRequest payload shape")
  | none => throw (Err.jsTypeError "reading getRequest of undefined")

/-- Embedding of generateEntropy of snapApi.ts: the snap_getEntropy host
result for the salt (a deterministic hex string by the host interface
contract of spec section 6), 0x-stripped and hex-decoded. -/
def generateEntropy (env : Env) (salt : String) : List Nat :=
  jsHexDecode (remove0x (env.entropyHex salt)).data

/-- Embedding of generateEciesKeyPair of cryptography.ts: the elliptic
genKeyPair entropy option is modelled by the deterministic env oracles;
the private scalar is printed as hex padded to 64 digits and decoded back
to a 32-byte buffer, the public key is the uncompressed hex encoding. -/
def generateEciesKeyPair (env : Env) (entropy : List Nat) : EciesKeyPair :=
  { privateKey := jsHexDecode (jsPadStart 64 '0' (jsNatToHex (env.libPriv entropy)))
    publicKey := env.libPubHex entropy }

/-- Modelled from the spec: wrapKeyPairOperation of cryptography.ts is
absent from the provided sources.  Per spec sections 4.2 and 9 it derives
the key pair from host entropy for the salt, performs exactly one
operation with it and discards the key material; the zeroisation has no
observable effect in a pure model. -/
def wrapKeyPairOperation {α : Type} (env : Env) (salt : String)
    (callback : EciesKeyPair → KM α) : KM α := do
  let entropy := generateEntropy env salt
  callback (generateEciesKeyPair env entropy)

/-- Embedding of decryptData of cryptography.ts over the ECIES oracle. -/
def decryptData (env : Env) (privateKey : List Nat) (dataStr : String) : KM (List Nat) :=
  match env.decryptFn privateKey (jsHexDecode dataStr.data) with
  | Except.ok b => pure b
  | Except.error m => throw (Err.decryptError m)

/-- Code points of a string; agrees with the UTF-8 bytes on the ASCII
content this code hashes, and the hash itself is an oracle. -/
def strUtf8 (s : String) : List Nat := s.data.map Char.toNat

/-- Embedding of createPersonalSignDataDigest of cryptography.ts: prefix
byte 25 (0x19) and the Ethereum Signed Message header with the decimal
byte length, then keccak-256 via the oracle. -/
def createPersonalSignDataDigest (env : Env) (message : String) : List Nat :=
  let isHex := jsStartsWith message "0x"
  let messageToEncode := remove0x message
  let encodedMessage :=
    if isHex then jsHexDecode messageToEncode.data else strUtf8 messageToEncode
  env.keccak
    ((25 :: strUtf8 ("Ethereum Signed Message:\n" ++ toString encodedMessage.length)) ++
      encodedMessage)

/-- Embedding of createSignTypedDataDigest of cryptography.ts: the typed
data hash is the external eip712Hash primitive, an oracle. -/
def createSignTypedDataDigest (env : Env) (message version : String) : List Nat :=
  env.eip712Hash message version

/-- Embedding of isUsingRpcProxy of snapApi.ts, driven by the probe
script: an rpc failure throws the wrapped error, a non-object response
throws, otherwise the marker is the proxy field being present and true. -/
def isUsingRpcProxy : KM Bool := fun w =>
  match w.probeResults with
  | [] => EStateM.Result.error (Err.rpcCallFailed "no scripted probe response") w
  | ProbeResult.rpcError m :: rest =>
    EStateM.Result.error (Err.rpcCallFailed m) { w with probeResults := rest }
  | ProbeResult.nonObject :: rest =>
    EStateM.Result.error Err.nonObjectProbeResponse { w with probeResults := rest }
  | ProbeResult.objResp hasProxyField proxyVal :: rest =>
    EStateM.Result.ok (hasProxyField && proxyVal) { w with probeResults := rest }

/-- Embedding of displayProxyDialog of snapApi.ts. -/
def displayProxyDialog : KM Unit := pushNotice Notice.proxyDialog

/-- Embedding of getMetamaskVersion of snapApi.ts applied to the raw
web3_clientVersion oracle string. -/
def getMetamaskVersion (env : Env) : String :=
  (env.mmVersion.splitOn "/").getD 1 ""

/-- String value of a SnapMode, as interpolated into clientInfo. -/
def modeString : SnapMode → String
  | SnapMode.Basic => "basic"
  | SnapMode.Enhanced => "enhanced"

/-- Placeholder configuration standing for the unchecked cast
(state.trustApiConfiguration as TrustApiConfiguration) on the undefined
value; every call site is guarded so it is never observed. -/
def defaultTrustApiConfiguration : TrustApiConfiguration :=
  { url := "", apiKey := "", trustId := "", token := { enc := "", iv := "", tag := "" } }

/-- Embedding of the private getRequestConfiguration of keyring.ts. -/
def getRequestConfiguration (env : Env) : KM RequestConfiguration := fun w =>
  EStateM.Result.ok
    { trustApiConfiguration := w.mem.trustApiConfiguration.getD defaultTrustApiConfiguration
      clientInfo :=
        "mm:" ++ getMetamaskVersion env ++ "/snap:" ++ env.snapVer ++ "/mode:" ++
          modeString w.mem.mode } w

/-- Embedding of checkProxyUsage of keyring.ts. -/
def checkProxyUsage : KM Bool := fun w =>
  if w.mem.mode ≠ SnapMode.Enhanced then EStateM.Result.ok true w
  else isUsingRpcProxy w

/-- Embedding of the private getRpcUrl of keyring.ts. -/
def getRpcUrl (chainId : String) : KM (Option String) := fun w =>
  if w.mem.mode ≠ SnapMode.Enhanced then EStateM.Result.ok none w
  else
    match recFind w.mem.rpcUrls chainId with
    | none => EStateM.Result.error (Err.chainIdHasNoRpcUrl chainId) w
    | some url => EStateM.Result.ok (some url) w

/-- Embedding of lowercaseHexAddress of keyring.ts. -/
def lowercaseHexAddress (address : String) : String := jsToLower (add0x address)

/-- Embedding of the private getAccountFromId of keyring.ts. -/
def getAccountFromId (id : String) : KM KeyringAccount := fun w =>
  match recFind w.mem.accounts id with
  | none => EStateM.Result.error (Err.accountNotFoundById id) w
  | some a => EStateM.Result.ok a w

/-- Embedding of the private getAccountFromAddress of keyring.ts:
Object.values order is the record insertion order, that is the list
order. -/
def getAccountFromAddress (address : String) : KM KeyringAccount := fun w =>
  match w.mem.accounts.find?
      (fun p => lowercaseHexAddress p.2.address == lowercaseHexAddress address) with
  | none => EStateM.Result.error (Err.accountNotFoundByAddress (lowercaseHexAddress address)) w
  | some p => EStateM.Result.ok p.2 w

/-- Embedding of the private resolveCredentials of keyring.ts; a missing
or non-string options.trustId is the trustId error, a missing token for
the trustId is the token error. -/
def resolveCredentials (account : KeyringAccount) : KM Credentials := fun w =>
  match account.trustId with
  | none => EStateM.Result.error Err.trustIdMissing w
  | some tid =>
    match recFind w.mem.trustIdToToken tid with
    | none => EStateM.Result.error (Err.tokenNotFound tid) w
    | some token => EStateM.Result.ok { trustId := tid, token := token } w

/-- Embedding of getRequest of keyring.ts. -/
def getRequestK (id : String) : KM TrustVaultRequest := fun w =>
  match recFind w.mem.requests id with
  | none => EStateM.Result.error (Err.requestDoesNotExist id) w
  | some r => EStateM.Result.ok r w

/-- Embedding of the private updateRequestStatus of keyring.ts: re-read
the request, replace it with the new status, then save the in-memory
state as the persisted blob. -/
def updateRequestStatus (id : String) (status : RequestStatus) : KM Unit := fun w =>
  match recFind w.mem.requests id with
  | none => EStateM.Result.error (Err.requestDoesNotExist id) w
  | some request =>
    let mem2 :=
      { w.mem with
        requests := recInsert request.id { request with status := status } w.mem.requests }
    EStateM.Result.ok () { w with mem := mem2, persisted := mem2 }

/-- Embedding of the private addRequest of keyring.ts: record the request
and save the in-memory state as the persisted blob. -/
def addRequest (request : TrustVaultRequest) : KM Unit := fun w =>
  let mem2 := { w.mem with requests := recInsert request.id request w.mem.requests }
  EStateM.Result.ok () { w with mem := mem2, persisted := mem2 }

/-- Embedding of the private isFinalStatus of keyring.ts. -/
def isFinalStatus (s : TrustVaultRequestStatus) : Bool :=
  s == TrustVaultRequestStatus.Signed || s == TrustVaultRequestStatus.Submitted

/-- Embedding of the private isFailedStatus of keyring.ts. -/
def isFailedStatus (s : TrustVaultRequestStatus) : Bool :=
  s == TrustVaultRequestStatus.Blocked || s == TrustVaultRequestStatus.Cancelled ||
    s == TrustVaultRequestStatus.Errored

/-- Embedding of the private getTransactionInfo of keyring.ts. -/
def getTransactionInfoK (env : Env) (request : TrustVaultRequest) :
    KM TransactionInfoResponse := fun w =>
  (if w.mem.trustApiConfiguration = none then
    (throw Err.missingTrustApiConfiguration : KM TransactionInfoResponse)
  else do
    let config ← getRequestConfiguration env
    let account ← getAccountFromId request.account
    let credentials ← resolveCredentials account
    fetchTransactionInfo env config credentials request.trustVaultRequestId) w

/-- Embedding of the private getRequest remote lookup of keyring.ts. -/
def getRequestInfoK (env : Env) (request : TrustVaultRequest) : KM GetRequestResponse := fun w =>
  (if w.mem.trustApiConfiguration = none then
    (throw Err.missingTrustApiConfiguration : KM GetRequestResponse)
  else do
    let config ← getRequestConfiguration env
    let account ← getAccountFromId request.account
    let credentials ← resolveCredentials account
    clientGetRequest env config credentials request.trustVaultRequestId) w

/-- The EthMethod string constants of the metamask keyring-api package. -/
def ethMethodSignTransaction : String := "eth_signTransaction"

/-- The personal-sign EthMethod string. -/
def ethMethodPersonalSign : String := "personal_sign"

/-- The typed-data v3 EthMethod string. -/
def ethMethodSignTypedDataV3 : String := "eth_signTypedData_v3"

/-- The typed-data v4 EthMethod string. -/
def ethMethodSignTypedDataV4 : String := "eth_signTypedData_v4"

/-- Embedding of the private decryptSignature of keyring.ts. -/
def decryptSignature (env : Env) (requestId signature : String) : KM (List Nat) :=
  wrapKeyPairOperation env requestId (fun keyPair => decryptData env keyPair.privateKey signature)

/-- Embedding of the private getPersonalSignature of keyring.ts. -/
def getPersonalSignature (env : Env) (request : TrustVaultRequest)
    (encryptedSignature : String) : KM String := do
  let decrypted ← decryptSignature env request.id encryptedSignature
  match request.params with
  | ReqParams.personal message address =>
    (match getAdjustedSignature env.ecApi (createPersonalSignDataDigest env message)
        decrypted address with
    | Except.ok s => pure s
    | Except.error m => throw (Err.sigError m))
  | _ => throw (Err.jsTypeError "personal sign params shape")

/-- Embedding of the private getSignTypedDataSignature of keyring.ts. -/
def getSignTypedDataSignature (env : Env) (request : TrustVaultRequest)
    (encryptedSignature : String) (version : String) : KM String := do
  let decrypted ← decryptSignature env request.id encryptedSignature
  match request.params with
  | ReqParams.typed address message =>
    (match getAdjustedSignature env.ecApi (createSignTypedDataDigest env message version)
        decrypted address with
    | Except.ok s => pure s
    | Except.error m => throw (Err.sigError m))
  | _ => throw (Err.jsTypeError "typed data params shape")

/-- Embedding of the private checkAndFinaliseTransaction of keyring.ts. -/
def checkAndFinaliseTransaction (env : Env) (request : TrustVaultRequest) : KM Unit := do
  let transactionInfo ← getTransactionInfoK env request
  if isFailedStatus transactionInfo.status then do
    updateRequestStatus request.id RequestStatus.Rejected
    emitEvent (KEvent.requestRejected request.id)
  else if !(isFinalStatus transactionInfo.status) then pure ()
  else
    match transactionInfo.signedTransaction with
    | none => throw (Err.jsTypeError "reading transaction of undefined signedTransaction")
    | some st => do
      updateRequestStatus request.id RequestStatus.Signed
      emitEvent (KEvent.requestApproved request.id
        (ApproveResult.vrs (add0x st.v) (add0x st.r) (add0x st.s)))

/-- Embedding of the private checkAndFinalisePersonalSign of keyring.ts. -/
def checkAndFinalisePersonalSign (env : Env) (request : TrustVaultRequest) : KM Unit := do
  let requestInfo ← getRequestInfoK env request
  if !(isFinalStatus requestInfo.status) then pure ()
  else
    match requestInfo.signaturesRaw with
    | none => throw (Err.jsTypeError "reading raw of undefined signatures")
    | some raw => do
      let signature ← getPersonalSignature env request raw
      updateRequestStatus request.id RequestStatus.Signed
      emitEvent (KEvent.requestApproved request.id (ApproveResult.sigStr signature))

/-- Embedding of the private checkAndFinaliseSignTypedData of keyring.ts. -/
def checkAndFinaliseSignTypedData (env : Env) (request : TrustVaultRequest)
    (version : String) : KM Unit := do
  let requestInfo ← getRequestInfoK env request
  if !(isFinalStatus requestInfo.status) then pure ()
  else
    match requestInfo.signaturesRaw with
    | none => throw (Err.jsTypeError "reading raw of undefined signatures")
    | some raw => do
      let signature ← getSignTypedDataSignature env request raw version
      updateRequestStatus request.id RequestStatus.Signed
      emitEvent (KEvent.requestApproved request.id (ApproveResult.sigStr signature))

/-- Embedding of the private checkAndFinaliseRequest of keyring.ts:
without a TrustApi configuration it silently returns, otherwise it
dispatches on the request method. -/
def checkAndFinaliseRequest (env : Env) (request : TrustVaultRequest) : KM Unit := fun w =>
  (if w.mem.trustApiConfiguration = none then (pure () : KM Unit)
  else if request.method = ethMethodSignTransaction then
    checkAndFinaliseTransaction env request
  else if request.method = ethMethodPersonalSign then
    checkAndFinalisePersonalSign env request
  else if request.method = ethMethodSignTypedDataV3 then
    checkAndFinaliseSignTypedData env request "V3"
  else if request.method = ethMethodSignTypedDataV4 then
    checkAndFinaliseSignTypedData env request "V4"
  else throw (Err.unsupportedMethod request.method)) w

/-- Embedding of approveRequest of keyring.ts: look the request up, then
try the finalisation and swallow (log) any error it throws. -/
def approveRequest (env : Env) (id : String) : KM Unit := do
  let request ← getRequestK id
  tryCatch (checkAndFinaliseRequest env request) (fun _ => pure ())

/-- Sequential iteration of approveRequest over a list of request ids
(the Promise.all of checkPendingRequests; spec section 5 permits
sequential polling of distinct requests). -/
def approveAll (env : Env) : List String → KM Unit
  | [] => pure ()
  | id :: rest => do
    approveRequest env id
    approveAll env rest

/-- Embedding of checkPendingRequests of keyring.ts: skip the cycle when
the enhanced-mode proxy check fails, otherwise finalise every Pending
request. -/
def checkPendingRequests (env : Env) : KM Unit := do
  let ok ← checkProxyUsage
  if !ok then pure ()
  else
    (fun w =>
      approveAll env
        (((w.mem.requests.map (fun p => p.2)).filter
          (fun r => r.status == RequestStatus.Pending)).map (fun r => r.id)) w : KM Unit)

/-- Embedding of rejectRequest of keyring.ts: always the not-implemented
error. -/
def rejectRequest (_id : String) : KM Unit := throw Err.notImplemented

/-- JavaScript parseInt(s, 16): optional 0x or 0X prefix, then the maximal
leading run of hex digits; none models NaN (signs do not occur here and a
signed string falls to none, which like NaN selects the default switch
branch). -/
def jsParseHexInt (s : String) : Option Nat :=
  let cs :=
    if List.isPrefixOf ['0', 'x'] s.data || List.isPrefixOf ['0', 'X'] s.data then s.data.drop 2
    else s.data
  let ds := cs.takeWhile (fun c => isHexDigitChar c)
  if ds.isEmpty then none else some (hexValBE ds)

/-- Embedding of the private signEip1559Transaction of keyring.ts. -/
def signEip1559Transaction (env : Env) (transaction : EvmTransaction)
    (rpcUrl : Option String) : KM String := do
  let config ← getRequestConfiguration env
  let account ← getAccountFromAddress transaction.fromAddr
  let credentials ← resolveCredentials account
  (fun w =>
    createEip1559Transaction env config credentials transaction
      (w.mem.mode == SnapMode.Enhanced) rpcUrl w : KM String)

/-- Embedding of the private signLegacyTransaction of keyring.ts. -/
def signLegacyTransaction (env : Env) (transaction : EvmTransaction)
    (rpcUrl : Option String) : KM String := do
  let config ← getRequestConfiguration env
  let account ← getAccountFromAddress transaction.fromAddr
  let credentials ← resolveCredentials account
  (fun w =>
    createLegacyTransaction env config credentials transaction
      (w.mem.mode == SnapMode.Enhanced) rpcUrl w : KM String)

/-- Embedding of the private signTransaction of keyring.ts: proxy gate
with dialog, rpc url resolution, then dispatch on the parsed transaction
type byte with 0 legacy, 2 eip-1559 and everything else unsupported. -/
def signTransaction (env : Env) (transaction : EvmTransaction) : KM String := do
  let ok ← checkProxyUsage
  if !ok then do
    displayProxyDialog
    throw Err.proxyNotConfigured
  else do
    let rpcUrl ← getRpcUrl transaction.chainId
    match jsParseHexInt transaction.typeField with
    | some 0 => signLegacyTransaction env transaction rpcUrl
    | some 2 => signEip1559Transaction env transaction rpcUrl
    | _ => throw (Err.unsupportedTxType transaction.typeField)

/-- Embedding of the private signPersonalSign of keyring.ts. -/
def signPersonalSign (env : Env) (requestId address message : String) : KM String := do
  let publicKey ← wrapKeyPairOperation env requestId (fun keyPair => pure keyPair.publicKey)
  let config ← getRequestConfiguration env
  let account ← getAccountFromAddress address
  let credentials ← resolveCredentials account
  createPersonalSign env config credentials address message publicKey

/-- Embedding of the private signTypedData of keyring.ts. -/
def signTypedData (env : Env) (requestId address message version : String) : KM String := do
  let publicKey ← wrapKeyPairOperation env requestId (fun keyPair => pure keyPair.publicKey)
  let config ← getRequestConfiguration env
  let account ← getAccountFromAddress address
  let credentials ← resolveCredentials account
  createSignTypedData env config credentials address message version publicKey

/-- Embedding of the private handleSigningRequest of keyring.ts: dispatch
on the method string; mismatched params shapes (unchecked casts in the
source) are TypeErrors. -/
def handleSigningRequest (env : Env) (requestId method : String) (params : ReqParams) :
    KM String :=
  if method = ethMethodSignTransaction then
    match params with
    | ReqParams.txParams transaction => signTransaction env transaction
    | _ => throw (Err.jsTypeError "transaction params shape")
  else if method = ethMethodPersonalSign then
    match params with
    | ReqParams.personal message address => signPersonalSign env requestId address message
    | _ => throw (Err.jsTypeError "personal sign params shape")
  else if method = ethMethodSignTypedDataV3 then
    match params with
    | ReqParams.typed address message => signTypedData env requestId address message "V3"
    | _ => throw (Err.jsTypeError "typed data params shape")
  else if method = ethMethodSignTypedDataV4 then
    match params with
    | ReqParams.typed address message => signTypedData env requestId address message "V4"
    | _ => throw (Err.jsTypeError "typed data params shape")
  else throw (Err.unsupportedMethod method)

/-- Embedding of submitRequest of keyring.ts: guard on the configuration,
create the remote job, then record the Pending request and save (the
pending true response is the Unit value). -/
def submitRequest (env : Env) (request : KeyringRequest) : KM Unit := fun w =>
  (if w.mem.trustApiConfiguration = none then (throw Err.noTrustApiConfiguration : KM Unit)
  else do
    let trustVaultId ← handleSigningRequest env request.id request.method request.params
    addRequest
      { id := request.id, account := request.account, method := request.method,
        params := request.params, trustVaultRequestId := trustVaultId,
        status := RequestStatus.Pending }) w

/-- Options passed to createAccount; none in a field models an absent or
non-string (respectively non-token) value. -/
structure CreateAccountOptions where
  name : Option String
  address : Option String
  trustId : Option String
  token : Option TrustApiToken
deriving DecidableEq, Repr

/-- The isValidHexAddress check of the metamask utils package: 0x plus
exactly 40 hex digits. -/
def isValidHexAddress (s : String) : Bool :=
  jsStartsWith s "0x" && (s.data.drop 2).length == 40 && (s.data.drop 2).all isHexDigitChar

/-- Embedding of mapTrustIdToToken of keyring.ts.  Storing the unchecked
token cast of an absent token assigns undefined, modelled as erasing the
key (observably equal for every reader in the code); then save. -/
def mapTrustIdToToken (trustId : String) (token : Option TrustApiToken) : KM Unit := fun w =>
  let mem2 :=
    match token with
    | some t => { w.mem with trustIdToToken := recInsert trustId t w.mem.trustIdToToken }
    | none => { w.mem with trustIdToToken := recErase trustId w.mem.trustIdToToken }
  EStateM.Result.ok () { w with mem := mem2, persisted := mem2 }

/-- Core of createAccount after validation: pop a fresh uuid, emit the
account-created event, record the account, save. -/
def createAccountCore (trustId address : String) : KM KeyringAccount := fun w =>
  let id := w.uuids.headD ""
  let account : KeyringAccount := { id := id, address := address, trustId := some trustId }
  let mem2 := { w.mem with accounts := recInsert account.id account w.mem.accounts }
  EStateM.Result.ok account
    { w with uuids := w.uuids.drop 1,
             events := w.events ++ [KEvent.accountCreated account.id],
             mem := mem2, persisted := mem2 }

/-- Embedding of createAccount of keyring.ts: validations, token mapping,
fresh uuid, account-created event, record the account, save. -/
def createAccount (options : CreateAccountOptions) : KM KeyringAccount := fun w =>
  (match options.name with
  | none => (throw Err.nameNotString : KM KeyringAccount)
  | some _ =>
    match options.address with
    | none => throw Err.addressNotString
    | some address =>
      if !(isValidHexAddress (add0x address)) then throw (Err.invalidEvmAddress address)
      else if (w.mem.accounts.map (fun (p : String × KeyringAccount) => p.2.address)).contains
          address then
        throw (Err.addressInUse address)
      else
        match options.trustId with
        | none => throw Err.trustIdNotString
        | some trustId => do
          mapTrustIdToToken trustId options.token
          createAccountCore trustId address) w

/-- Embedding of deleteAccount of keyring.ts: existence check,
account-deleted event, delete the entry, save. -/
def deleteAccount (id : String) : KM Unit := fun w =>
  match recFind w.mem.accounts id with
  | none => EStateM.Result.error (Err.accountDoesNotExist id) w
  | some _ =>
    let mem2 := { w.mem with accounts := recErase id w.mem.accounts }
    EStateM.Result.ok ()
      { w with events := w.events ++ [KEvent.accountDeleted id], mem := mem2, persisted := mem2 }

/-- The metamaskKeyringMethods list of index.ts, with the wire values of
the KeyringRpcMethod enum of the metamask keyring-api package. -/
def metamaskKeyringMethods : List String :=
  ["keyring_listAccounts", "keyring_getAccount", "keyring_filterAccountChains",
   "keyring_deleteAccount", "keyring_listRequests", "keyring_getRequest",
   "keyring_submitRequest", "keyring_rejectRequest"]

/-- Decidable form of the data-model invariant: every request references
an existing account. -/
def reqAccountsInvB (s : KeyringState) : Bool :=
  s.requests.all (fun p => (recFind s.accounts p.2.account).isSome)

/-- The invariant of claim C2 as a proposition. -/
def ReqAccountsInv (s : KeyringState) : Prop := reqAccountsInvB s = true

/-- World reached by a run, whether it returned or threw. -/
def resWorld {α : Type} : EStateM.Result Err World α → World
  | EStateM.Result.ok _ w => w
  | EStateM.Result.error _ w => w

/-- Whether a run returned normally. -/
def isOkR {α : Type} : EStateM.Result Err World α → Bool
  | EStateM.Result.ok _ _ => true
  | EStateM.Result.error _ _ => false

/-- Number of business posts (as opposed to refresh posts) in a trace. -/
def countBusiness (tr : List (PostKind × TrustApiToken)) : Nat :=
  (tr.filter (fun p => p.1 == PostKind.business)).length

/-- No two entries of a record share a key (true of every JavaScript
record). -/
def keysNodupB {α : Type} : List (String × α) → Bool
  | [] => true
  | p :: rest => (!(rest.any (fun q => q.1 == p.1))) && keysNodupB rest

/-- A request table is well keyed when its keys are unique and every entry
is stored under the id of the request it holds; every state the code
constructs is well keyed. -/
def wellKeyedB (s : KeyringState) : Bool :=
  s.requests.all (fun p => p.1 == p.2.id) && keysNodupB s.requests

/-- Trivial instantiation of the external recovery oracle used to witness
the C4 theorem: recovery returns the recovery id as a one-byte public key
and the address of a public key is the key itself. -/
def c4api : ECApi :=
  { ecrecover := fun _ v _ _ => Except.ok [v]
    pubToAddress := fun p => p }

/-- A concrete 64-byte signature of zero bytes for the C4 witness. -/
def c4sig : List Nat := List.replicate 64 0

/-- Concrete deterministic environment used by witnesses and
counterexamples. -/
def demoEnv : Env :=
  { fuel := 20
    mmVersion := "MetaMask/v12.0.0"
    snapVer := "1.0.0"
    entropyHex := fun _ => "0x11"
    libPriv := fun _ => 1
    libPubHex := fun _ => "04ab"
    decryptFn := fun _ _ => Except.ok [1]
    keccak := fun _ => [0]
    eip712Hash := fun _ _ => [0]
    ecApi := c4api }

/-- A concrete session token. -/
def demoToken : TrustApiToken := { enc := "enc0", iv := "iv0", tag := "tag0" }

/-- A second concrete session token, the refreshed one. -/
def demoToken1 : TrustApiToken := { enc := "enc1", iv := "iv1", tag := "tag1" }

/-- A concrete TrustApi configuration. -/
def demoConfigTA : TrustApiConfiguration :=
  { url := "url", apiKey := "key", trustId := "T", token := demoToken }

/-- A concrete request configuration for direct client calls. -/
def demoReqConfig : RequestConfiguration :=
  { trustApiConfiguration := demoConfigTA, clientInfo := "ci" }

/-- Concrete credentials for organisation T. -/
def demoCreds : Credentials := { trustId := "T", token := demoToken }

/-- A concrete account belonging to organisation T. -/
def demoAccount : KeyringAccount :=
  { id := "a1", address := "0xaa", trustId := some "T" }

/-- A concrete EIP-1559 transaction from the demo account. -/
def demoTx : EvmTransaction :=
  { nonce := "0x0", chainId := "0x1", maxFeePerGas := some "0x2",
    maxPriorityFeePerGas := some "0x4", gasLimit := "0x3", gasPrice := none,
    fromAddr := "0xaa", toAddr := "0xbb", value := "0x1", dataField := "",
    typeField := "0x2" }

/-- A transaction signing request in a given status. -/
def txRequest (st : RequestStatus) : TrustVaultRequest :=
  { id := "r1", account := "a1", method := ethMethodSignTransaction,
    params := ReqParams.txParams demoTx, trustVaultRequestId := "tv1", status := st }

/-- A second transaction signing request. -/
def txRequest2 (st : RequestStatus) : TrustVaultRequest :=
  { id := "r2", account := "a1", method := ethMethodSignTransaction,
    params := ReqParams.txParams demoTx, trustVaultRequestId := "tv2", status := st }

/-- Base keyring state: configuration installed, one account, a token for
organisation T and no requests. -/
def baseState : KeyringState :=
  { trustApiConfiguration := some demoConfigTA
    accounts := [("a1", demoAccount)]
    requests := []
    rpcUrls := []
    trustIdToToken := [("T", demoToken)]
    mode := SnapMode.Basic }

/-- World with the given in-memory and persisted state, scripts, and empty
logs. -/
def mkWorld (s : KeyringState) (script : List ScriptEntry) (probes : List ProbeResult) :
    World :=
  { mem := s, persisted := s, notices := [], events := [], script := script,
    trace := [], probeResults := probes, uuids := ["u1"] }

/-- Response body reporting an invalid session token. -/
def invalidSessionBody : GqlBody :=
  { errors := some [{ errorType := some "INVALID_SESSION_TOKEN" }], data := none }

/-- Successful refresh response carrying a complete token. -/
def refreshOkBody (tok : TrustApiToken) : GqlBody :=
  { errors := none,
    data := some (DataPayload.refreshed
      { enc := some tok.enc, iv := some tok.iv, tag := some tok.tag }) }

/-- Refresh response with an application-level errors list. -/
def refreshErrBody : GqlBody :=
  { errors := some [{ errorType := some "SOME_ERROR" }], data := none }

/-- Refresh response whose token is missing its tag component. -/
def refreshIncompleteBody : GqlBody :=
  { errors := none,
    data := some (DataPayload.refreshed { enc := some "e", iv := some "i", tag := none }) }

/-- Successful create-job response with the given remote request id. -/
def createOkBody (rid : String) : GqlBody :=
  { errors := none, data := some (DataPayload.createResp rid) }

/-- A concrete remote signature triple. -/
def demoSignedTx : SignedTx := { r := "1", s := "2", v := "3" }

/-- Transaction-info response body with the given status and payload. -/
def txInfoBody (s : TrustVaultRequestStatus) (t : Option SignedTx) : GqlBody :=
  { errors := none, data := some (DataPayload.txInfo { signedTransaction := t, status := s }) }

/-- World holding one already-Signed request, with a scripted Cancelled
transaction-info response for the remote call approveRequest makes. -/
def c3World : World :=
  mkWorld { baseState with requests := [("r1", txRequest RequestStatus.Signed)] }
    [ScriptEntry.ok (txInfoBody TrustVaultRequestStatus.Cancelled none)] []

/-- World holding one already-Signed request and no scripted responses. -/
def c3bWorld : World :=
  mkWorld { baseState with requests := [("r1", txRequest RequestStatus.Signed)] } [] []

/-- Enhanced-mode world whose proxy probe fails, holding one Pending
request. -/
def c7World : World :=
  mkWorld
    { baseState with
      mode := SnapMode.Enhanced,
      requests := [("r1", txRequest RequestStatus.Pending)] }
    [ScriptEntry.ok (txInfoBody TrustVaultRequestStatus.Pending none)]
    [ProbeResult.rpcError "boom"]

/-- Basic-mode world holding one Pending request whose remote status is
still Pending. -/
def c7bWorld : World :=
  mkWorld { baseState with requests := [("r1", txRequest RequestStatus.Pending)] }
    [ScriptEntry.ok (txInfoBody TrustVaultRequestStatus.Pending none)] []

/-- World with the base state and one scripted Pending transaction-info
response. -/
def c10World : World :=
  mkWorld baseState [ScriptEntry.ok (txInfoBody TrustVaultRequestStatus.Pending none)] []

/-- The world after the transaction-info fetch of the C10 run. -/
def c10World1 : World :=
  resWorld (getTransactionInfoK demoEnv (txRequest RequestStatus.Pending) c10World)

/-- The transaction-info payload of the C10 run. -/
def c10Info : TransactionInfoResponse :=
  { signedTransaction := none, status := TrustVaultRequestStatus.Pending }

/-- A third concrete token, refreshed a second time. -/
def demoToken2 : TrustApiToken := { enc := "enc2", iv := "iv2", tag := "tag2" }

/-- Script driving two full invalid-session/refresh cycles before the
final success. -/
def c1World : World :=
  mkWorld baseState
    [ScriptEntry.ok invalidSessionBody, ScriptEntry.ok (refreshOkBody demoToken1),
     ScriptEntry.ok invalidSessionBody, ScriptEntry.ok (refreshOkBody demoToken2),
     ScriptEntry.ok (createOkBody "tv9")] []

/-- Script driving one invalid-session/refresh cycle before the final
success. -/
def c1bWorld : World :=
  mkWorld baseState
    [ScriptEntry.ok invalidSessionBody, ScriptEntry.ok (refreshOkBody demoToken1),
     ScriptEntry.ok (createOkBody "tv9")] []

/-- World holding one Pending request referencing the only account. -/
def c2World : World :=
  mkWorld { baseState with requests := [("r1", txRequest RequestStatus.Pending)] } [] []

/-- A keyring request whose account field references no stored account. -/
def ghostReq : KeyringRequest :=
  { id := "g1", account := "ghost", method := ethMethodPersonalSign,
    params := ReqParams.personal "hello" "0xaa" }

/-- Base world with one scripted successful create-job response. -/
def c2bWorld : World := mkWorld baseState [ScriptEntry.ok (createOkBody "tvG")] []

/-- World holding one Pending request and one scripted Pending
transaction-info response. -/
def c2okWorld : World :=
  mkWorld { baseState with requests := [("r1", txRequest RequestStatus.Pending)] }
    [ScriptEntry.ok (txInfoBody TrustVaultRequestStatus.Pending none)] []

/-- A personal-sign keyring request from the demo account. -/
def c8Req : KeyringRequest :=
  { id := "k1", account := "a1", method := ethMethodPersonalSign,
    params := ReqParams.personal "hello" "0xaa" }

/-- Submit run whose session refresh comes back with an errors list. -/
def c8World : World :=
  mkWorld baseState [ScriptEntry.ok invalidSessionBody, ScriptEntry.ok refreshErrBody] []

/-- Submit run whose remote create call succeeds at once. -/
def c8bWorld : World := mkWorld baseState [ScriptEntry.ok (createOkBody "tv8")] []

/-- Run whose session refresh returns incomplete token material. -/
def c9World : World :=
  mkWorld baseState [ScriptEntry.ok invalidSessionBody, ScriptEntry.ok refreshIncompleteBody] []

/-- Run whose session refresh dies on the network. -/
def c9bWorld : World :=
  mkWorld baseState [ScriptEntry.ok invalidSessionBody, ScriptEntry.netError "down"] []

/-- World whose next scripted response is a refresh errors list. -/
def c9cWorld : World := mkWorld baseState [ScriptEntry.ok refreshErrBody] []

/-- The error a run threw, if any. -/
def errOfR {α : Type} : EStateM.Result Err World α → Option Err
  | EStateM.Result.ok _ _ => none
  | EStateM.Result.error e _ => some e

/-- Concrete 64-byte raw signature whose s half encodes the value
EC_GROUP_ORDER + 2, exercising the negative branch of the BigInt
subtraction inside adjustSignatureSValue. -/
def c5sig : List Nat :=
  List.replicate 32 17 ++
    [255, 255, 255, 255, 255, 255, 255, 255, 255, 255, 255, 255, 255, 255, 255, 254,
     186, 174, 220, 230, 175, 72, 160, 59, 191, 210, 94, 140, 208, 54, 65, 67]

/-- Client-level frame: the in-memory state is untouched and the
persisted blob can change only in its trustIdToToken field. -/
def ClientPres (w w' : World) : Prop :=
  w'.mem = w.mem ∧
  w'.persisted.trustApiConfiguration = w.persisted.trustApiConfiguration ∧
  w'.persisted.accounts = w.persisted.accounts ∧
  w'.persisted.requests = w.persisted.requests ∧
  w'.persisted.rpcUrls = w.persisted.rpcUrls ∧
  w'.persisted.mode = w.persisted.mode

/-- A computation satisfies the client frame from every start world. -/
def CPres {α : Type} (x : KM α) : Prop := ∀ w, ClientPres w (resWorld (x w))

/-- Request-table frame of the finalisation path: every key stays present
and every entry descends from an entry of the old table with the same
identity fields (only the status may differ). -/
def ReqsPres (rs rs' : List (String × TrustVaultRequest)) : Prop :=
  (∀ k, (recFind rs k).isSome = true → (recFind rs' k).isSome = true) ∧
  (∀ p' ∈ rs', ∃ p ∈ rs, p'.2.id = p.2.id ∧ p'.2.account = p.2.account ∧
    p'.2.method = p.2.method ∧ p'.2.params = p.2.params)

/-- Finalisation-path frame on the in-memory state: everything except the
request statuses is unchanged. -/
def FinPres (w w' : World) : Prop :=
  w'.mem.trustApiConfiguration = w.mem.trustApiConfiguration ∧
  w'.mem.accounts = w.mem.accounts ∧
  w'.mem.rpcUrls = w.mem.rpcUrls ∧
  w'.mem.trustIdToToken = w.mem.trustIdToToken ∧
  w'.mem.mode = w.mem.mode ∧
  ReqsPres w.mem.requests w'.mem.requests

/-- A computation satisfies the finalisation frame from every start
world. -/
def FPres {α : Type} (x : KM α) : Prop := ∀ w, FinPres w (resWorld (x w))

/-- Touch-only frame for the finalisation of one request: from a
well-keyed state, the table stays well keyed and every key other than the
finalised one keeps its binding unchanged. -/
def RTouch (tid : String) (w w' : World) : Prop :=
  wellKeyedB w.mem = true →
    (wellKeyedB w'.mem = true ∧
      ∀ k, ¬ k = tid → recFind w'.mem.requests k = recFind w.mem.requests k)

/-- A computation touches only the request entry of the given id. -/
def RT {α : Type} (tid : String) (x : KM α) : Prop :=
  ∀ w, RTouch tid w (resWorld (x w))

/-- Error frame: when a computation throws, the in-memory keyring state is
left exactly as it was. -/
def EMS {α : Type} (x : KM α) : Prop :=
  ∀ w e w', x w = EStateM.Result.error e w' → w'.mem = w.mem

/-- A computation that never throws. -/
def NeverErr {α : Type} (x : KM α) : Prop :=
  ∀ w e w', ¬ x w = EStateM.Result.error e w'

/-- No entry becomes Rejected: any Rejected entry of the final table was
already present, identical, in the initial table. -/
def NoNewRejected (w w' : World) : Prop :=
  ∀ k r, recFind w'.mem.requests k = some r → r.status = RequestStatus.Rejected →
    recFind w.mem.requests k = some r

/-- A computation introduces no Rejected entry from any start world. -/
def NNR {α : Type} (x : KM α) : Prop := ∀ w, NoNewRejected w (resWorld (x w))

lemma hexCharVal_hexDigitChar {d : Nat} (hd : d < 16) :
    hexCharVal (hexDigitChar d) = d := by
  have h : ∀ x : Fin 16, hexCharVal (hexDigitChar x.1) = x.1 := by decide
  exact h ⟨d, hd⟩

lemma isHexDigitChar_hexDigitChar {d : Nat} (hd : d < 16) :
    isHexDigitChar (hexDigitChar d) = true := by
  have h : ∀ x : Fin 16, isHexDigitChar (hexDigitChar x.1) = true := by decide
  exact h ⟨d, hd⟩

lemma hexCharVal_lt (c : Char) : hexCharVal c < 16 := by
  simp only [hexCharVal]
  split_ifs with h1 h2 h3 <;> simp_all <;> omega

lemma foldl_mul_add_acc (B : Nat) (bs : List Nat) (a : Nat) :
    bs.foldl (fun x b => x * B + b) a = a * B ^ bs.length + bs.foldl (fun x b => x * B + b) 0 := by
  induction bs generalizing a with
  | nil => simp
  | cons b bs ih =>
    simp only [List.foldl_cons, List.length_cons]
    rw [ih (a * B + b), ih (0 * B + b)]
    ring

lemma bytesToNat_cons (b : Nat) (bs : List Nat) :
    bytesToNat (b :: bs) = b * 256 ^ bs.length + bytesToNat bs := by
  simp only [bytesToNat, List.foldl_cons]
  rw [foldl_mul_add_acc 256 bs (0 * 256 + b)]
  ring_nf

lemma hexValBE_acc (cs : List Char) (a : Nat) :
    cs.foldl (fun x c => x * 16 + hexCharVal c) a = a * 16 ^ cs.length + hexValBE cs := by
  induction cs generalizing a with
  | nil => simp [hexValBE]
  | cons c cs ih =>
    simp only [List.foldl_cons, List.length_cons, hexValBE]
    rw [ih (a * 16 + hexCharVal c), ih (0 * 16 + hexCharVal c)]
    ring

lemma hexValBE_cons (c : Char) (cs : List Char) :
    hexValBE (c :: cs) = hexCharVal c * 16 ^ cs.length + hexValBE cs := by
  simp only [hexValBE, List.foldl_cons]
  rw [hexValBE_acc cs (0 * 16 + hexCharVal c)]
  simp [hexValBE]

lemma natToHexAux_lt (fuel m : Nat) : ∀ d ∈ natToHexAux fuel m, d < 16 := by
  induction fuel generalizing m with
  | zero => intro d hd; simp [natToHexAux] at hd
  | succ fuel ih =>
    cases m with
    | zero => intro d hd; simp [natToHexAux] at hd
    | succ m =>
      intro d hd
      simp only [natToHexAux, List.mem_cons] at hd
      rcases hd with h | h
      · subst h; exact Nat.mod_lt _ (by norm_num)
      · exact ih _ d h

lemma natToHexAux_ofDigits (fuel m : Nat) (hm : m < 16 ^ fuel) :
    Nat.ofDigits 16 (natToHexAux fuel m) = m := by
  induction fuel generalizing m with
  | zero => interval_cases m; simp [natToHexAux]
  | succ fuel ih =>
    cases m with
    | zero => simp [natToHexAux]
    | succ m =>
      have hdiv : (m + 1) / 16 < 16 ^ fuel := by
        rw [Nat.div_lt_iff_lt_mul (by norm_num)]
        calc m + 1 < 16 ^ (fuel + 1) := hm
        _ = 16 ^ fuel * 16 := by ring
      simp only [natToHexAux, Nat.ofDigits_cons, ih _ hdiv]
      omega

lemma natToHexAux_len (fuel m k : Nat) (hm : m < 16 ^ k) :
    (natToHexAux fuel m).length ≤ k := by
  induction fuel generalizing m k with
  | zero => simp [natToHexAux]
  | succ fuel ih =>
    cases m with
    | zero => simp [natToHexAux]
    | succ m =>
      cases k with
      | zero => simp at hm
      | succ k =>
        have hdiv : (m + 1) / 16 < 16 ^ k := by
          rw [Nat.div_lt_iff_lt_mul (by norm_num)]
          calc m + 1 < 16 ^ (k + 1) := hm
          _ = 16 ^ k * 16 := by ring
        simpa [natToHexAux] using ih ((m + 1) / 16) k hdiv

lemma hexValBE_append_single (xs : List Char) (c : Char) :
    hexValBE (xs ++ [c]) = hexValBE xs * 16 + hexCharVal c := by
  simp [hexValBE, List.foldl_append]

lemma hexValBE_rev_digits (ds : List Nat) (hds : ∀ d ∈ ds, d < 16) :
    hexValBE ((ds.map hexDigitChar).reverse) = Nat.ofDigits 16 ds := by
  induction ds with
  | nil => simp [hexValBE]
  | cons d ds ih =>
    have hd : d < 16 := hds d (List.mem_cons_self d ds)
    simp only [List.map_cons, List.reverse_cons, hexValBE_append_single,
      ih (fun x hx => hds x (List.mem_cons_of_mem d hx)),
      hexCharVal_hexDigitChar hd, Nat.ofDigits_cons]
    ring

lemma hexValBE_zero_pad (k : Nat) (cs : List Char) :
    hexValBE (List.replicate k '0' ++ cs) = hexValBE cs := by
  induction k with
  | zero => simp
  | succ k ih =>
    have : (List.replicate (k + 1) '0' : List Char) ++ cs =
        '0' :: (List.replicate k '0' ++ cs) := by
      simp [List.replicate_succ]
    rw [this]
    simpa [hexValBE, hexCharVal] using ih

lemma jsHexDecode_even (cs : List Char) (hhex : ∀ c ∈ cs, isHexDigitChar c = true)
    (heven : cs.length % 2 = 0) :
    (jsHexDecode cs).length = cs.length / 2 ∧
      bytesToNat (jsHexDecode cs) = hexValBE cs ∧
      (∀ b ∈ jsHexDecode cs, b < 256) := by
  induction cs using jsHexDecode.induct with
  | case1 c1 c2 rest hcond ih =>
    have hrest : ∀ c ∈ rest, isHexDigitChar c = true := by
      intro c hc; exact hhex c (by simp [hc])
    have hre : rest.length % 2 = 0 := by
      simp only [List.length_cons] at heven; omega
    obtain ⟨hlen, hval, hlt⟩ := ih hrest hre
    have hv1 : hexCharVal c1 < 16 := hexCharVal_lt c1
    have hv2 : hexCharVal c2 < 16 := hexCharVal_lt c2
    have hdec : jsHexDecode (c1 :: c2 :: rest) =
        (hexCharVal c1 * 16 + hexCharVal c2) :: jsHexDecode rest := by
      simp [jsHexDecode, hcond]
    refine ⟨?_, ?_, ?_⟩
    · rw [hdec]
      simp only [List.length_cons]
      omega
    · rw [hdec, bytesToNat_cons, hexValBE_cons, hexValBE_cons, hval, hlen]
      have hpow : (256 : Nat) ^ (rest.length / 2) = 16 ^ rest.length := by
        have h2 : rest.length = 2 * (rest.length / 2) := by omega
        calc (256 : Nat) ^ (rest.length / 2) = (16 ^ 2) ^ (rest.length / 2) := by norm_num
        _ = 16 ^ (2 * (rest.length / 2)) := by rw [← pow_mul]
        _ = 16 ^ rest.length := by rw [← h2]
      rw [hpow]
      simp only [List.length_cons]
      ring
    · intro b hb
      rw [hdec] at hb
      rcases List.mem_cons.mp hb with h | h
      · subst h; omega
      · exact hlt b h
  | case2 c1 c2 rest hcond =>
    exfalso
    have h1 : isHexDigitChar c1 = true := hhex c1 (by simp)
    have h2 : isHexDigitChar c2 = true := hhex c2 (by simp)
    simp [h1, h2] at hcond
  | case3 cs hcs =>
    match cs, hcs with
    | [], _ => simp [jsHexDecode, bytesToNat, hexValBE]
    | [c], h => simp at heven
    | c1 :: c2 :: rest, h => exact absurd rfl (h c1 c2 rest)

lemma jsPadStart_of_le (n : Nat) (c : Char) (cs : List Char) (h : cs.length ≤ n) :
    jsPadStart n c cs = List.replicate (n - cs.length) c ++ cs := by
  unfold jsPadStart
  split_ifs with h2
  · have he : cs.length = n := le_antisymm h h2
    rw [← he]
    simp
  · rfl

set_option maxRecDepth 4000 in
lemma padHexRoundTrip (m : Nat) (hm : m < 16 ^ 64) :
    (jsHexDecode (jsPadStart 64 '0' (intToHexJS (m : Int)))).length = 32 ∧
      bytesToNat (jsHexDecode (jsPadStart 64 '0' (intToHexJS (m : Int)))) = m := by
  have hpos : intToHexJS (m : Int) = jsNatToHex m := by
    simp [intToHexJS, not_lt.mpr (Int.natCast_nonneg m)]
  rw [hpos]
  by_cases hm0 : m = 0
  · subst hm0
    decide
  · have hbase : jsNatToHex m = ((natToHexAux 256 m).map hexDigitChar).reverse := by
      simp [jsNatToHex, hm0]
    set ds := natToHexAux 256 m with hds
    have hdlt : ∀ d ∈ ds, d < 16 := natToHexAux_lt 256 m
    have hdlen : ds.length ≤ 64 := natToHexAux_len 256 m 64 hm
    have hblen : (jsNatToHex m).length ≤ 64 := by
      rw [hbase]; simpa using hdlen
    rw [jsPadStart_of_le 64 '0' _ hblen]
    have hhex : ∀ c ∈ List.replicate (64 - (jsNatToHex m).length) '0' ++ jsNatToHex m,
        isHexDigitChar c = true := by
      intro c hc
      rcases List.mem_append.mp hc with h | h
      · rw [List.eq_of_mem_replicate h]; decide
      · rw [hbase] at h
        rcases List.mem_reverse.mp h with h
        rcases List.mem_map.mp h with ⟨d, hd, rfl⟩
        exact isHexDigitChar_hexDigitChar (hdlt d hd)
    have hlen64 : (List.replicate (64 - (jsNatToHex m).length) '0' ++ jsNatToHex m).length = 64 := by
      simp
      omega
    have heven : (List.replicate (64 - (jsNatToHex m).length) '0' ++ jsNatToHex m).length % 2 = 0 := by
      rw [hlen64]
    obtain ⟨hl, hv, _⟩ := jsHexDecode_even _ hhex heven
    constructor
    · rw [hl, hlen64]
    · rw [hv, hexValBE_zero_pad, hbase, hexValBE_rev_digits ds hdlt]
      exact natToHexAux_ofDigits 256 m
        (lt_of_lt_of_le hm (Nat.pow_le_pow_right (by norm_num) (by norm_num)))

lemma strAppend_assoc (a b c : String) : a ++ b ++ c = a ++ (b ++ c) := by
  cases a with | mk as =>
  cases b with | mk bs =>
  cases c with | mk cs =>
  show String.mk (as ++ bs ++ cs) = String.mk (as ++ (bs ++ cs))
  rw [List.append_assoc]

lemma adjustSignatureSValue_of_le (s : List Nat) (h32 : s.length = 32)
    (hle : bytesToNat s ≤ EC_GROUP_ORDER / 2) : adjustSignatureSValue s = s := by
  unfold adjustSignatureSValue
  rw [h32]
  rw [if_neg (by omega), if_pos]
  have : (bytesToNat s : Int) ≤ ((EC_GROUP_ORDER / 2 : Nat) : Int) := by exact_mod_cast hle
  omega

lemma adjustSignatureSValue_of_gt (s : List Nat) (h32 : s.length = 32)
    (hgt : EC_GROUP_ORDER / 2 < bytesToNat s) (hlt : bytesToNat s < EC_GROUP_ORDER) :
    bytesToNat (adjustSignatureSValue s) = EC_GROUP_ORDER - bytesToNat s ∧
      (adjustSignatureSValue s).length = 32 := by
  have hne : ¬ ((bytesToNat s : Int) - ((EC_GROUP_ORDER / 2 : Nat) : Int) ≤ 0) := by
    have : ((EC_GROUP_ORDER / 2 : Nat) : Int) < (bytesToNat s : Int) := by exact_mod_cast hgt
    omega
  have hcast : (EC_GROUP_ORDER : Int) - (bytesToNat s : Int) =
      ((EC_GROUP_ORDER - bytesToNat s : Nat) : Int) := by
    omega
  have hlt64 : EC_GROUP_ORDER - bytesToNat s < 16 ^ 64 := by
    have h1 : EC_GROUP_ORDER < 16 ^ 64 := by norm_num [EC_GROUP_ORDER]
    omega
  obtain ⟨hL, hV⟩ := padHexRoundTrip (EC_GROUP_ORDER - bytesToNat s) hlt64
  have hrw : adjustSignatureSValue s =
      jsHexDecode (jsPadStart 64 '0' (intToHexJS ((EC_GROUP_ORDER - bytesToNat s : Nat) : Int))) := by
    unfold adjustSignatureSValue
    rw [h32, if_neg (by omega), if_neg hne, hcast]
  rw [hrw]
  exact ⟨hV, hL⟩

/-- C5 counterexample helper fact: on c5sig the adjusted s value is a list
of 31 zero bytes, because the string (-2).toString(16) starts with a minus
sign that makes the Node hex decoder stop one byte short. -/
lemma c5sig_adjust_eq : adjustSignatureSValue ((c5sig.drop 32).take 32) = List.replicate 31 0 := by
  decide

/-- Claim C5 fails on the code: for the 64-byte raw signature c5sig, whose
s value is EC_GROUP_ORDER + 2, the emitted s component has value 0, which
is neither curveOrder minus s (a negative number) nor the unchanged
input, so the claimed normalisation property is false at this input. -/
theorem C5_counterexample : ¬ claimC5At c5sig := by
  intro h
  have hgt : EC_GROUP_ORDER / 2 < bytesToNat ((c5sig.drop 32).take 32) := by decide
  have hB := h.2.1 hgt
  rw [c5sig_adjust_eq] at hB
  revert hB
  decide

/-- Claim C5, amended with the hypothesis that the s half of the raw
signature encodes a value below the curve order (which every signature
actually produced over secp256k1 satisfies): the emitted s is at most half
the group order, equals curveOrder minus s exactly when s exceeds half the
order and is unchanged otherwise, and the r slice reaches the emitted
signature string unmodified. -/
theorem C5_amended_thm (sig : List Nat) (hlen : sig.length = 64)
    (hrange : bytesToNat ((sig.drop 32).take 32) < EC_GROUP_ORDER) :
    claimC5At sig ∧
      ∀ (api : ECApi) (digest : List Nat) (address out : String),
        getAdjustedSignature api digest sig address = Except.ok out →
        ∃ restStr, out = "0x" ++ bytesToHex (sig.take 32) ++ restStr := by
  have hslen : ((sig.drop 32).take 32).length = 32 := by
    simp [List.length_take, List.length_drop, hlen]
  constructor
  · by_cases hc : bytesToNat ((sig.drop 32).take 32) ≤ EC_GROUP_ORDER / 2
    · have heq := adjustSignatureSValue_of_le _ hslen hc
      exact ⟨by rw [heq]; exact hc, fun hgt => absurd hgt (by omega), fun _ => heq⟩
    · have hgt : EC_GROUP_ORDER / 2 < bytesToNat ((sig.drop 32).take 32) := by omega
      obtain ⟨hV, hL⟩ := adjustSignatureSValue_of_gt _ hslen hgt hrange
      refine ⟨?_, fun _ => ?_, fun hno => absurd hgt hno⟩
      · rw [hV]
        have h2 : 2 * (EC_GROUP_ORDER / 2) + 1 = EC_GROUP_ORDER := by
          norm_num [EC_GROUP_ORDER]
        omega
      · rw [hV]
        have : bytesToNat ((sig.drop 32).take 32) ≤ EC_GROUP_ORDER := le_of_lt hrange
        omega
  · intro api digest address out hout
    unfold getAdjustedSignature at hout
    rw [if_neg (by omega)] at hout
    cases hv : retrieveV api digest (sig.take 32)
        (adjustSignatureSValue ((sig.drop 32).take 32)) address with
    | error e =>
      rw [hv] at hout
      exact absurd hout (by simp)
    | ok v =>
      rw [hv] at hout
      refine ⟨bytesToHex (adjustSignatureSValue ((sig.drop 32).take 32)) ++ bytesToHex v, ?_⟩
      have hout2 := Except.ok.inj hout
      rw [← hout2, strAppend_assoc]

/-- Witness instantiating C5_amended_thm at a concrete signature whose s
half exceeds half the group order. -/
theorem C5_witness :
    claimC5At (List.replicate 32 17 ++ (254 :: List.replicate 31 0)) :=
  (C5_amended_thm (List.replicate 32 17 ++ (254 :: List.replicate 31 0))
    (by decide) (by decide)).1

lemma retrieveV_eq (api : ECApi) (digest r s : List Nat) (address : String)
    (p27 p28 : List Nat)
    (h27 : api.ecrecover digest 27 r s = Except.ok p27)
    (h28 : api.ecrecover digest 28 r s = Except.ok p28) :
    retrieveV api digest r s address =
      if add0x (jsToLower (bytesToHex (api.pubToAddress p27))) = jsToLower address then
        Except.ok (numToHexBuffer 27)
      else if add0x (jsToLower (bytesToHex (api.pubToAddress p28))) = jsToLower address then
        Except.ok (numToHexBuffer 28)
      else Except.error "cannot retrieve v signature value" := by
  unfold retrieveV
  rw [h27, h28]
  rfl

/-- Claim C4: getAdjustedSignature rejects signatures that are not exactly
64 bytes with an invalid-length error; otherwise it determines v by trial
recovery, testing v 27 before v 28 and picking the first candidate whose
derived address matches the claimed address case-insensitively, emits
0x followed by the hex of r, the normalised s and the one-byte v (1b for
27, 1c for 28), and fails with the address-mismatch error when neither
candidate matches.  The external recovery primitives are quantified as an
oracle. -/
theorem C4_thm (api : ECApi) (digest sig : List Nat) (address : String) :
    (sig.length ≠ 64 →
      getAdjustedSignature api digest sig address =
        Except.error ("Signature has invalid length: " ++ toString sig.length)) ∧
    (sig.length = 64 →
      ∀ p27 p28 : List Nat,
        api.ecrecover digest 27 (sig.take 32)
            (adjustSignatureSValue ((sig.drop 32).take 32)) = Except.ok p27 →
        api.ecrecover digest 28 (sig.take 32)
            (adjustSignatureSValue ((sig.drop 32).take 32)) = Except.ok p28 →
        (add0x (jsToLower (bytesToHex (api.pubToAddress p27))) = jsToLower address →
            getAdjustedSignature api digest sig address =
              Except.ok ("0x" ++ bytesToHex (sig.take 32) ++
                bytesToHex (adjustSignatureSValue ((sig.drop 32).take 32)) ++ "1b")) ∧
        (add0x (jsToLower (bytesToHex (api.pubToAddress p27))) ≠ jsToLower address →
          add0x (jsToLower (bytesToHex (api.pubToAddress p28))) = jsToLower address →
            getAdjustedSignature api digest sig address =
              Except.ok ("0x" ++ bytesToHex (sig.take 32) ++
                bytesToHex (adjustSignatureSValue ((sig.drop 32).take 32)) ++ "1c")) ∧
        (add0x (jsToLower (bytesToHex (api.pubToAddress p27))) ≠ jsToLower address →
          add0x (jsToLower (bytesToHex (api.pubToAddress p28))) ≠ jsToLower address →
            getAdjustedSignature api digest sig address =
              Except.error "cannot retrieve v signature value")) := by
  have h1b : bytesToHex (numToHexBuffer 27) = "1b" := by decide
  have h1c : bytesToHex (numToHexBuffer 28) = "1c" := by decide
  constructor
  · intro hne
    unfold getAdjustedSignature
    rw [if_pos hne]
  · intro hlen p27 p28 h27 h28
    have hrv := retrieveV_eq api digest (sig.take 32)
      (adjustSignatureSValue ((sig.drop 32).take 32)) address p27 p28 h27 h28
    refine ⟨?_, ?_, ?_⟩
    · intro hm27
      unfold getAdjustedSignature
      rw [if_neg (by omega), hrv, if_pos hm27]
      dsimp only
      rw [h1b]
    · intro hm27 hm28
      unfold getAdjustedSignature
      rw [if_neg (by omega), hrv, if_neg hm27, if_pos hm28]
      dsimp only
      rw [h1c]
    · intro hm27 hm28
      unfold getAdjustedSignature
      rw [if_neg (by omega), hrv, if_neg hm27, if_neg hm28]

/-- Witness for C4_thm: with the trivial oracle, the v 27 candidate
address 0x1b does not match the claimed address 0x1c, the v 28 candidate
does, and the emitted signature string ends in 1c. -/
theorem C4_witness :
    getAdjustedSignature c4api [] c4sig "0x1c" =
      Except.ok ("0x" ++ bytesToHex (c4sig.take 32) ++
        bytesToHex (adjustSignatureSValue ((c4sig.drop 32).take 32)) ++ "1c") :=
  ((C4_thm c4api [] c4sig "0x1c").2 (by decide) [27] [28] rfl rfl).2.1
    (by decide) (by decide)

lemma km_bind_def {α β : Type} (x : KM α) (g : α → KM β) (w : World) :
    (x >>= g) w =
      match x w with
      | EStateM.Result.ok a w' => g a w'
      | EStateM.Result.error e w' => EStateM.Result.error e w' := by
  change EStateM.bind x g w = _
  unfold EStateM.bind
  cases x w <;> rfl

lemma km_tryCatch_def {α : Type} (x : KM α) (h : Err → KM α) (w : World) :
    (tryCatch x h) w =
      match x w with
      | EStateM.Result.ok a w' => EStateM.Result.ok a w'
      | EStateM.Result.error e w' => h e w' := by
  change EStateM.tryCatch x h w = _
  unfold EStateM.tryCatch
  cases x w <;> rfl

lemma km_pure_def {α : Type} (a : α) (w : World) :
    (pure a : KM α) w = EStateM.Result.ok a w := rfl

lemma km_throw_def {α : Type} (e : Err) (w : World) :
    (throw e : KM α) w = EStateM.Result.error e w := rfl

lemma recFind_cons {α : Type} (p : String × α) (rest : List (String × α)) (k : String) :
    recFind (p :: rest) k = if p.1 = k then some p.2 else recFind rest k := by
  simp only [recFind, List.find?]
  by_cases h : p.1 = k
  · simp [h]
  · have hb : (p.1 == k) = false := beq_eq_false_iff_ne.mpr h
    simp [hb, h]

lemma recInsert_cons {α : Type} (k : String) (v : α) (p : String × α)
    (rest : List (String × α)) :
    recInsert k v (p :: rest) =
      if p.1 = k then (k, v) :: rest else p :: recInsert k v rest := by
  by_cases h : p.1 = k <;> simp [recInsert, h]

lemma recErase_cons {α : Type} (k : String) (p : String × α) (rest : List (String × α)) :
    recErase k (p :: rest) = if p.1 = k then recErase k rest else p :: recErase k rest := by
  by_cases h : p.1 = k <;> simp [recErase, List.filter_cons, h]

lemma recFind_mem {α : Type} {rs : List (String × α)} {k : String} {v : α}
    (h : recFind rs k = some v) : (k, v) ∈ rs := by
  induction rs with
  | nil => simp [recFind] at h
  | cons p rest ih =>
    rw [recFind_cons] at h
    by_cases hk : p.1 = k
    · rw [if_pos hk] at h
      cases p with
      | mk p1 p2 =>
        simp only [Option.some.injEq] at h
        simp only at hk
        subst hk
        subst h
        exact List.mem_cons_self _ _
    · rw [if_neg hk] at h
      exact List.mem_cons_of_mem p (ih h)

lemma mem_recInsert {α : Type} {p' : String × α} {k : String} {v : α}
    {rs : List (String × α)} (h : p' ∈ recInsert k v rs) : p' = (k, v) ∨ p' ∈ rs := by
  induction rs with
  | nil => simpa [recInsert] using h
  | cons p rest ih =>
    rw [recInsert_cons] at h
    by_cases hk : p.1 = k
    · rw [if_pos hk] at h
      rcases List.mem_cons.mp h with h | h
      · exact Or.inl h
      · exact Or.inr (List.mem_cons_of_mem p h)
    · rw [if_neg hk] at h
      rcases List.mem_cons.mp h with h | h
      · exact Or.inr (by simp [h])
      · rcases ih h with h | h
        · exact Or.inl h
        · exact Or.inr (List.mem_cons_of_mem p h)

lemma recFind_insert_self {α : Type} (k : String) (v : α) (rs : List (String × α)) :
    recFind (recInsert k v rs) k = some v := by
  induction rs with
  | nil => simp [recInsert, recFind, List.find?]
  | cons p rest ih =>
    rw [recInsert_cons]
    by_cases hk : p.1 = k
    · rw [if_pos hk, recFind_cons]
      simp
    · rw [if_neg hk, recFind_cons, if_neg hk]
      exact ih

lemma recFind_insert_ne {α : Type} (k : String) (v : α) (rs : List (String × α))
    (k' : String) (h : ¬ k' = k) : recFind (recInsert k v rs) k' = recFind rs k' := by
  induction rs with
  | nil =>
    simp only [recInsert, recFind, List.find?]
    have : (k == k') = false := by simp [beq_iff_eq]; exact fun hc => h hc.symm
    rw [this]
  | cons p rest ih =>
    rw [recInsert_cons]
    by_cases hk : p.1 = k
    · rw [if_pos hk, recFind_cons, recFind_cons]
      have h1 : ¬ (k : String) = k' := fun hc => h hc.symm
      have h2 : ¬ p.1 = k' := by rw [hk]; exact h1
      rw [if_neg h1, if_neg h2]
    · rw [if_neg hk, recFind_cons, recFind_cons]
      by_cases hp : p.1 = k'
      · rw [if_pos hp, if_pos hp]
      · rw [if_neg hp, if_neg hp]
        exact ih

lemma recFind_insert_isSome {α : Type} (k : String) (v : α) (rs : List (String × α))
    (k' : String) (h : (recFind rs k').isSome = true) :
    (recFind (recInsert k v rs) k').isSome = true := by
  by_cases hk : k' = k
  · subst hk
    rw [recFind_insert_self]
    rfl
  · rw [recFind_insert_ne k v rs k' hk]
    exact h

lemma clientPres_refl (w : World) : ClientPres w w := ⟨rfl, rfl, rfl, rfl, rfl, rfl⟩

lemma clientPres_trans {a b c : World} (h1 : ClientPres a b) (h2 : ClientPres b c) :
    ClientPres a c := by
  obtain ⟨m1, a1, b1, c1, d1, e1⟩ := h1
  obtain ⟨m2, a2, b2, c2, d2, e2⟩ := h2
  exact ⟨m2.trans m1, a2.trans a1, b2.trans b1, c2.trans c1, d2.trans d1, e2.trans e1⟩

lemma cpres_bind {α β : Type} {x : KM α} {g : α → KM β}
    (hx : CPres x) (hg : ∀ a, CPres (g a)) : CPres (x >>= g) := by
  intro w
  rw [km_bind_def]
  have hxw := hx w
  cases hres : x w with
  | ok a w' =>
    rw [hres] at hxw
    exact clientPres_trans hxw (hg a w')
  | error e w' =>
    rw [hres] at hxw
    exact hxw

lemma cpres_pure {α : Type} (a : α) : CPres (pure a : KM α) := fun w => clientPres_refl w

lemma cpres_throw {α : Type} (e : Err) : CPres (throw e : KM α) := fun w => clientPres_refl w

lemma cpres_postStep (k : PostKind) (tok : TrustApiToken) : CPres (postStep k tok) := by
  intro w
  unfold postStep
  cases w.script with
  | nil => exact ⟨rfl, rfl, rfl, rfl, rfl, rfl⟩
  | cons e rest => cases e <;> exact ⟨rfl, rfl, rfl, rfl, rfl, rfl⟩

lemma cpres_removeInvalidCredentials (tid : String) : CPres (removeInvalidCredentials tid) :=
  fun _ => ⟨rfl, rfl, rfl, rfl, rfl, rfl⟩

lemma cpres_notifyInvalidSession (tid : String) : CPres (notifyInvalidSession tid) :=
  fun _ => ⟨rfl, rfl, rfl, rfl, rfl, rfl⟩

lemma cpres_refreshCredentials (tid : String) (tok : TrustApiToken) :
    CPres (refreshCredentials tid tok) :=
  fun _ => ⟨rfl, rfl, rfl, rfl, rfl, rfl⟩

lemma cpres_refreshAuthToken (tok : TrustApiToken) (tid : String) :
    CPres (refreshAuthToken tok tid) := by
  unfold refreshAuthToken
  apply cpres_bind (cpres_postStep _ _)
  intro body
  cases body.errors with
  | some errs =>
    apply cpres_bind (cpres_removeInvalidCredentials tid)
    intro _
    apply cpres_bind (cpres_notifyInvalidSession tid)
    intro _
    exact cpres_throw _
  | none =>
    cases body.data with
    | none => exact cpres_throw _
    | some dp =>
      cases dp with
      | refreshed parts => exact cpres_pure _
      | createResp r => exact cpres_pure _
      | txInfo i => exact cpres_pure _
      | getReq r => exact cpres_pure _

lemma cpres_graphQLRequest (fuel : Nat) (cq : TrustApiToken → String)
    (config : RequestConfiguration) (creds : Credentials) :
    CPres (graphQLRequest fuel cq config creds) := by
  induction fuel generalizing creds with
  | zero => exact cpres_throw _
  | succ fuel ih =>
    rw [graphQLRequest]
    apply cpres_bind (cpres_postStep _ _)
    intro body
    cases body.errors with
    | none => exact cpres_pure _
    | some errs =>
      dsimp only
      by_cases hinv : errorsSignalInvalidSession errs = true
      · rw [if_pos hinv]
        apply cpres_bind (cpres_refreshAuthToken _ _)
        intro rt
        cases rt with
        | none => exact cpres_throw _
        | some parts =>
          dsimp only
          by_cases hf :
              (jsFalsyStr parts.enc || jsFalsyStr parts.iv || jsFalsyStr parts.tag) = true
          · rw [if_pos hf]
            exact cpres_throw _
          · rw [if_neg hf]
            apply cpres_bind (cpres_refreshCredentials _ _)
            intro _
            exact ih _
      · rw [if_neg hinv]
        exact cpres_throw _

lemma cpres_matchData {α : Type} (resp : GqlBody)
    (f : DataPayload → KM α) (hf : ∀ d, CPres (f d)) (e1 e2 : KM α)
    (he1 : CPres e1) : CPres (match resp.data with | some d => f d | none => e1) := by
  cases resp.data with
  | none => exact he1
  | some d => exact hf d

lemma cpres_createEip1559Transaction (env : Env) (config : RequestConfiguration)
    (creds : Credentials) (t : EvmTransaction) (b : Bool) (u : Option String) :
    CPres (createEip1559Transaction env config creds t b u) := by
  unfold createEip1559Transaction
  apply cpres_bind (cpres_graphQLRequest _ _ _ _)
  intro resp
  cases resp.data with
  | none => exact cpres_throw _
  | some dp => cases dp <;> first | exact cpres_pure _ | exact cpres_throw _

lemma cpres_createLegacyTransaction (env : Env) (config : RequestConfiguration)
    (creds : Credentials) (t : EvmTransaction) (b : Bool) (u : Option String) :
    CPres (createLegacyTransaction env config creds t b u) := by
  unfold createLegacyTransaction
  apply cpres_bind (cpres_graphQLRequest _ _ _ _)
  intro resp
  cases resp.data with
  | none => exact cpres_throw _
  | some dp => cases dp <;> first | exact cpres_pure _ | exact cpres_throw _

lemma cpres_createSignTypedData (env : Env) (config : RequestConfiguration)
    (creds : Credentials) (a m v pk : String) :
    CPres (createSignTypedData env config creds a m v pk) := by
  unfold createSignTypedData
  apply cpres_bind (cpres_graphQLRequest _ _ _ _)
  intro resp
  cases resp.data with
  | none => exact cpres_throw _
  | some dp => cases dp <;> first | exact cpres_pure _ | exact cpres_throw _

lemma cpres_createPersonalSign (env : Env) (config : RequestConfiguration)
    (creds : Credentials) (a m pk : String) :
    CPres (createPersonalSign env config creds a m pk) := by
  unfold createPersonalSign
  apply cpres_bind (cpres_graphQLRequest _ _ _ _)
  intro resp
  cases resp.data with
  | none => exact cpres_throw _
  | some dp => cases dp <;> first | exact cpres_pure _ | exact cpres_throw _

lemma cpres_fetchTransactionInfo (env : Env) (config : RequestConfiguration)
    (creds : Credentials) (tvid : String) :
    CPres (fetchTransactionInfo env config creds tvid) := by
  unfold fetchTransactionInfo
  apply cpres_bind (cpres_graphQLRequest _ _ _ _)
  intro resp
  cases resp.data with
  | none => exact cpres_throw _
  | some dp => cases dp <;> first | exact cpres_pure _ | exact cpres_throw _

lemma cpres_clientGetRequest (env : Env) (config : RequestConfiguration)
    (creds : Credentials) (tvid : String) :
    CPres (clientGetRequest env config creds tvid) := by
  unfold clientGetRequest
  apply cpres_bind (cpres_graphQLRequest _ _ _ _)
  intro resp
  cases resp.data with
  | none => exact cpres_throw _
  | some dp => cases dp <;> first | exact cpres_pure _ | exact cpres_throw _

lemma cpres_decryptData (env : Env) (pk : List Nat) (ds : String) :
    CPres (decryptData env pk ds) := by
  unfold decryptData
  cases env.decryptFn pk (jsHexDecode ds.data) with
  | ok b => exact cpres_pure _
  | error m => exact cpres_throw _

lemma cpres_wrapKeyPairOperation {α : Type} (env : Env) (salt : String)
    (cb : EciesKeyPair → KM α) (hcb : ∀ kp, CPres (cb kp)) :
    CPres (wrapKeyPairOperation env salt cb) := by
  intro w
  exact hcb _ w

lemma cpres_getRequestConfiguration (env : Env) : CPres (getRequestConfiguration env) :=
  fun w => clientPres_refl w

lemma cpres_isUsingRpcProxy : CPres isUsingRpcProxy := by
  intro w
  unfold isUsingRpcProxy
  cases w.probeResults with
  | nil => exact clientPres_refl w
  | cons r rest => cases r <;> exact ⟨rfl, rfl, rfl, rfl, rfl, rfl⟩

lemma cpres_checkProxyUsage : CPres checkProxyUsage := by
  intro w
  unfold checkProxyUsage
  by_cases h : w.mem.mode ≠ SnapMode.Enhanced
  · rw [if_pos h]
    exact clientPres_refl w
  · rw [if_neg h]
    exact cpres_isUsingRpcProxy w

lemma cpres_getRpcUrl (chainId : String) : CPres (getRpcUrl chainId) := by
  intro w
  unfold getRpcUrl
  by_cases h : w.mem.mode ≠ SnapMode.Enhanced
  · rw [if_pos h]
    exact clientPres_refl w
  · rw [if_neg h]
    cases recFind w.mem.rpcUrls chainId <;> exact clientPres_refl w

lemma cpres_getAccountFromId (id : String) : CPres (getAccountFromId id) := by
  intro w
  unfold getAccountFromId
  cases recFind w.mem.accounts id <;> exact clientPres_refl w

lemma cpres_getAccountFromAddress (a : String) : CPres (getAccountFromAddress a) := by
  intro w
  unfold getAccountFromAddress
  cases w.mem.accounts.find?
      (fun p => lowercaseHexAddress p.2.address == lowercaseHexAddress a) with
  | none => exact clientPres_refl w
  | some p => exact clientPres_refl w

lemma cpres_resolveCredentials (acct : KeyringAccount) : CPres (resolveCredentials acct) := by
  intro w
  unfold resolveCredentials
  cases acct.trustId with
  | none => exact clientPres_refl w
  | some tid =>
    dsimp only
    cases recFind w.mem.trustIdToToken tid <;> exact clientPres_refl w

lemma cpres_getRequestK (id : String) : CPres (getRequestK id) := by
  intro w
  unfold getRequestK
  cases recFind w.mem.requests id <;> exact clientPres_refl w

lemma cpres_getTransactionInfoK (env : Env) (req : TrustVaultRequest) :
    CPres (getTransactionInfoK env req) := by
  intro w
  unfold getTransactionInfoK
  by_cases h : w.mem.trustApiConfiguration = none
  · rw [if_pos h]
    exact clientPres_refl w
  · rw [if_neg h]
    refine cpres_bind (cpres_getRequestConfiguration env) (fun config => ?_) w
    refine cpres_bind (cpres_getAccountFromId _) (fun acct => ?_)
    refine cpres_bind (cpres_resolveCredentials _) (fun creds => ?_)
    exact cpres_fetchTransactionInfo env config creds _

lemma cpres_getRequestInfoK (env : Env) (req : TrustVaultRequest) :
    CPres (getRequestInfoK env req) := by
  intro w
  unfold getRequestInfoK
  by_cases h : w.mem.trustApiConfiguration = none
  · rw [if_pos h]
    exact clientPres_refl w
  · rw [if_neg h]
    refine cpres_bind (cpres_getRequestConfiguration env) (fun config => ?_) w
    refine cpres_bind (cpres_getAccountFromId _) (fun acct => ?_)
    refine cpres_bind (cpres_resolveCredentials _) (fun creds => ?_)
    exact cpres_clientGetRequest env config creds _

lemma cpres_decryptSignature (env : Env) (rid sig : String) :
    CPres (decryptSignature env rid sig) :=
  cpres_wrapKeyPairOperation env rid _ (fun kp => cpres_decryptData env kp.privateKey sig)

lemma cpres_getPersonalSignature (env : Env) (req : TrustVaultRequest) (es : String) :
    CPres (getPersonalSignature env req es) := by
  unfold getPersonalSignature
  apply cpres_bind (cpres_decryptSignature env _ _)
  intro decrypted
  cases req.params with
  | personal message address =>
    dsimp only
    cases getAdjustedSignature env.ecApi (createPersonalSignDataDigest env message)
        decrypted address with
    | ok s => exact cpres_pure _
    | error m => exact cpres_throw _
  | txParams t => exact cpres_throw _
  | typed a m => exact cpres_throw _

lemma cpres_getSignTypedDataSignature (env : Env) (req : TrustVaultRequest)
    (es v : String) : CPres (getSignTypedDataSignature env req es v) := by
  unfold getSignTypedDataSignature
  apply cpres_bind (cpres_decryptSignature env _ _)
  intro decrypted
  cases req.params with
  | typed address message =>
    dsimp only
    cases getAdjustedSignature env.ecApi (createSignTypedDataDigest env message v)
        decrypted address with
    | ok s => exact cpres_pure _
    | error m => exact cpres_throw _
  | txParams t => exact cpres_throw _
  | personal m a => exact cpres_throw _

lemma cpres_displayProxyDialog : CPres displayProxyDialog :=
  fun _ => ⟨rfl, rfl, rfl, rfl, rfl, rfl⟩

lemma reqsPres_refl (rs : List (String × TrustVaultRequest)) : ReqsPres rs rs :=
  ⟨fun _ h => h, fun p' h => ⟨p', h, rfl, rfl, rfl, rfl⟩⟩

lemma reqsPres_trans {a b c : List (String × TrustVaultRequest)}
    (h1 : ReqsPres a b) (h2 : ReqsPres b c) : ReqsPres a c := by
  obtain ⟨k1, m1⟩ := h1
  obtain ⟨k2, m2⟩ := h2
  refine ⟨fun k h => k2 k (k1 k h), fun p' hp' => ?_⟩
  obtain ⟨q, hq, e1, e2, e3, e4⟩ := m2 p' hp'
  obtain ⟨p, hp, f1, f2, f3, f4⟩ := m1 q hq
  exact ⟨p, hp, e1.trans f1, e2.trans f2, e3.trans f3, e4.trans f4⟩

lemma finPres_refl (w : World) : FinPres w w :=
  ⟨rfl, rfl, rfl, rfl, rfl, reqsPres_refl _⟩

lemma finPres_trans {a b c : World} (h1 : FinPres a b) (h2 : FinPres b c) : FinPres a c := by
  obtain ⟨a1, b1, c1, d1, e1, r1⟩ := h1
  obtain ⟨a2, b2, c2, d2, e2, r2⟩ := h2
  refine ⟨a2.trans a1, b2.trans b1, c2.trans c1, d2.trans d1, e2.trans e1, ?_⟩
  exact reqsPres_trans r1 r2

lemma clientPres_finPres {w w' : World} (h : ClientPres w w') : FinPres w w' := by
  obtain ⟨hm, _⟩ := h
  exact ⟨by rw [hm], by rw [hm], by rw [hm], by rw [hm], by rw [hm], by rw [hm]; exact reqsPres_refl _⟩

lemma fpres_of_cpres {α : Type} {x : KM α} (h : CPres x) : FPres x :=
  fun w => clientPres_finPres (h w)

lemma fpres_bind {α β : Type} {x : KM α} {g : α → KM β}
    (hx : FPres x) (hg : ∀ a, FPres (g a)) : FPres (x >>= g) := by
  intro w
  rw [km_bind_def]
  have hxw := hx w
  cases hres : x w with
  | ok a w' =>
    rw [hres] at hxw
    exact finPres_trans hxw (hg a w')
  | error e w' =>
    rw [hres] at hxw
    exact hxw

lemma fpres_tryCatch {α : Type} {x : KM α} {h : Err → KM α}
    (hx : FPres x) (hh : ∀ e, FPres (h e)) : FPres (tryCatch x h) := by
  intro w
  rw [km_tryCatch_def]
  have hxw := hx w
  cases hres : x w with
  | ok a w' =>
    rw [hres] at hxw
    exact hxw
  | error e w' =>
    rw [hres] at hxw
    exact finPres_trans hxw (hh e w')

lemma fpres_pure {α : Type} (a : α) : FPres (pure a : KM α) := fun w => finPres_refl w

lemma fpres_throw {α : Type} (e : Err) : FPres (throw e : KM α) := fun w => finPres_refl w

lemma fpres_emitEvent (e : KEvent) : FPres (emitEvent e) := fun w => finPres_refl w

lemma fpres_updateRequestStatus (id : String) (status : RequestStatus) :
    FPres (updateRequestStatus id status) := by
  intro w
  unfold updateRequestStatus
  cases hf : recFind w.mem.requests id with
  | none => exact finPres_refl w
  | some request =>
    refine ⟨rfl, rfl, rfl, rfl, rfl, ?_, ?_⟩
    · intro k h
      exact recFind_insert_isSome _ _ _ _ h
    · intro p' hp'
      rcases mem_recInsert hp' with h | h
      · exact ⟨(id, request), recFind_mem hf, by rw [h], by rw [h], by rw [h], by rw [h]⟩
      · exact ⟨p', h, rfl, rfl, rfl, rfl⟩

lemma fpres_checkAndFinaliseTransaction (env : Env) (req : TrustVaultRequest) :
    FPres (checkAndFinaliseTransaction env req) := by
  unfold checkAndFinaliseTransaction
  apply fpres_bind (fpres_of_cpres (cpres_getTransactionInfoK env req))
  intro info
  by_cases h1 : isFailedStatus info.status = true
  · rw [if_pos h1]
    exact fpres_bind (fpres_updateRequestStatus _ _) (fun _ => fpres_emitEvent _)
  · rw [if_neg h1]
    by_cases h2 : (!(isFinalStatus info.status)) = true
    · rw [if_pos h2]
      exact fpres_pure _
    · rw [if_neg h2]
      cases info.signedTransaction with
      | none => exact fpres_throw _
      | some st =>
        dsimp only
        exact fpres_bind (fpres_updateRequestStatus _ _) (fun _ => fpres_emitEvent _)

lemma fpres_checkAndFinalisePersonalSign (env : Env) (req : TrustVaultRequest) :
    FPres (checkAndFinalisePersonalSign env req) := by
  unfold checkAndFinalisePersonalSign
  apply fpres_bind (fpres_of_cpres (cpres_getRequestInfoK env req))
  intro info
  by_cases h1 : (!(isFinalStatus info.status)) = true
  · rw [if_pos h1]
    exact fpres_pure _
  · rw [if_neg h1]
    cases info.signaturesRaw with
    | none => exact fpres_throw _
    | some raw =>
      dsimp only
      apply fpres_bind (fpres_of_cpres (cpres_getPersonalSignature env req raw))
      intro sig
      exact fpres_bind (fpres_updateRequestStatus _ _) (fun _ => fpres_emitEvent _)

lemma fpres_checkAndFinaliseSignTypedData (env : Env) (req : TrustVaultRequest)
    (v : String) : FPres (checkAndFinaliseSignTypedData env req v) := by
  unfold checkAndFinaliseSignTypedData
  apply fpres_bind (fpres_of_cpres (cpres_getRequestInfoK env req))
  intro info
  by_cases h1 : (!(isFinalStatus info.status)) = true
  · rw [if_pos h1]
    exact fpres_pure _
  · rw [if_neg h1]
    cases info.signaturesRaw with
    | none => exact fpres_throw _
    | some raw =>
      dsimp only
      apply fpres_bind (fpres_of_cpres (cpres_getSignTypedDataSignature env req raw v))
      intro sig
      exact fpres_bind (fpres_updateRequestStatus _ _) (fun _ => fpres_emitEvent _)

lemma fpres_checkAndFinaliseRequest (env : Env) (req : TrustVaultRequest) :
    FPres (checkAndFinaliseRequest env req) := by
  intro w
  unfold checkAndFinaliseRequest
  by_cases h0 : w.mem.trustApiConfiguration = none
  · rw [if_pos h0]
    exact finPres_refl w
  · rw [if_neg h0]
    by_cases h1 : req.method = ethMethodSignTransaction
    · rw [if_pos h1]
      exact fpres_checkAndFinaliseTransaction env req w
    · rw [if_neg h1]
      by_cases h2 : req.method = ethMethodPersonalSign
      · rw [if_pos h2]
        exact fpres_checkAndFinalisePersonalSign env req w
      · rw [if_neg h2]
        by_cases h3 : req.method = ethMethodSignTypedDataV3
        · rw [if_pos h3]
          exact fpres_checkAndFinaliseSignTypedData env req "V3" w
        · rw [if_neg h3]
          by_cases h4 : req.method = ethMethodSignTypedDataV4
          · rw [if_pos h4]
            exact fpres_checkAndFinaliseSignTypedData env req "V4" w
          · rw [if_neg h4]
            exact finPres_refl w

lemma fpres_approveRequest (env : Env) (id : String) : FPres (approveRequest env id) := by
  unfold approveRequest
  apply fpres_bind (fpres_of_cpres (cpres_getRequestK id))
  intro request
  exact fpres_tryCatch (fpres_checkAndFinaliseRequest env request) (fun _ => fpres_pure _)

lemma fpres_approveAll (env : Env) (ids : List String) : FPres (approveAll env ids) := by
  induction ids with
  | nil => exact fpres_pure _
  | cons id rest ih =>
    unfold approveAll
    exact fpres_bind (fpres_approveRequest env id) (fun _ => ih)

lemma fpres_checkPendingRequests (env : Env) : FPres (checkPendingRequests env) := by
  unfold checkPendingRequests
  apply fpres_bind (fpres_of_cpres cpres_checkProxyUsage)
  intro ok
  by_cases h : (!ok) = true
  · rw [if_pos h]
    exact fpres_pure _
  · rw [if_neg h]
    intro w
    exact fpres_approveAll env _ w

lemma cpres_signEip1559Transaction (env : Env) (t : EvmTransaction) (u : Option String) :
    CPres (signEip1559Transaction env t u) := by
  unfold signEip1559Transaction
  apply cpres_bind (cpres_getRequestConfiguration env)
  intro config
  apply cpres_bind (cpres_getAccountFromAddress _)
  intro acct
  apply cpres_bind (cpres_resolveCredentials _)
  intro creds
  intro w
  exact cpres_createEip1559Transaction env config creds t _ u w

lemma cpres_signLegacyTransaction (env : Env) (t : EvmTransaction) (u : Option String) :
    CPres (signLegacyTransaction env t u) := by
  unfold signLegacyTransaction
  apply cpres_bind (cpres_getRequestConfiguration env)
  intro config
  apply cpres_bind (cpres_getAccountFromAddress _)
  intro acct
  apply cpres_bind (cpres_resolveCredentials _)
  intro creds
  intro w
  exact cpres_createLegacyTransaction env config creds t _ u w

lemma cpres_signTransaction (env : Env) (t : EvmTransaction) :
    CPres (signTransaction env t) := by
  unfold signTransaction
  apply cpres_bind cpres_checkProxyUsage
  intro ok
  by_cases h : (!ok) = true
  · rw [if_pos h]
    exact cpres_bind cpres_displayProxyDialog (fun _ => cpres_throw _)
  · rw [if_neg h]
    apply cpres_bind (cpres_getRpcUrl _)
    intro u
    cases jsParseHexInt t.typeField with
    | none => exact cpres_throw _
    | some n =>
      match n with
      | 0 => exact cpres_signLegacyTransaction env t u
      | 1 => exact cpres_throw _
      | 2 => exact cpres_signEip1559Transaction env t u
      | (m + 3) => exact cpres_throw _

lemma cpres_signPersonalSign (env : Env) (rid a m : String) :
    CPres (signPersonalSign env rid a m) := by
  unfold signPersonalSign
  apply cpres_bind (cpres_wrapKeyPairOperation env rid _ (fun kp => cpres_pure _))
  intro pk
  apply cpres_bind (cpres_getRequestConfiguration env)
  intro config
  apply cpres_bind (cpres_getAccountFromAddress _)
  intro acct
  apply cpres_bind (cpres_resolveCredentials _)
  intro creds
  exact cpres_createPersonalSign env config creds a m pk

lemma cpres_signTypedData (env : Env) (rid a m v : String) :
    CPres (signTypedData env rid a m v) := by
  unfold signTypedData
  apply cpres_bind (cpres_wrapKeyPairOperation env rid _ (fun kp => cpres_pure _))
  intro pk
  apply cpres_bind (cpres_getRequestConfiguration env)
  intro config
  apply cpres_bind (cpres_getAccountFromAddress _)
  intro acct
  apply cpres_bind (cpres_resolveCredentials _)
  intro creds
  exact cpres_createSignTypedData env config creds a m v pk

lemma cpres_handleSigningRequest (env : Env) (rid method : String) (params : ReqParams) :
    CPres (handleSigningRequest env rid method params) := by
  unfold handleSigningRequest
  by_cases h1 : method = ethMethodSignTransaction
  · rw [if_pos h1]
    cases params with
    | txParams t => exact cpres_signTransaction env t
    | personal m a => exact cpres_throw _
    | typed a m => exact cpres_throw _
  · rw [if_neg h1]
    by_cases h2 : method = ethMethodPersonalSign
    · rw [if_pos h2]
      cases params with
      | personal m a => exact cpres_signPersonalSign env rid a m
      | txParams t => exact cpres_throw _
      | typed a m => exact cpres_throw _
    · rw [if_neg h2]
      by_cases h3 : method = ethMethodSignTypedDataV3
      · rw [if_pos h3]
        cases params with
        | typed a m => exact cpres_signTypedData env rid a m "V3"
        | txParams t => exact cpres_throw _
        | personal m a => exact cpres_throw _
      · rw [if_neg h3]
        by_cases h4 : method = ethMethodSignTypedDataV4
        · rw [if_pos h4]
          cases params with
          | typed a m => exact cpres_signTypedData env rid a m "V4"
          | txParams t => exact cpres_throw _
          | personal m a => exact cpres_throw _
        · rw [if_neg h4]
          exact cpres_throw _

lemma reqAccountsInv_iff (s : KeyringState) :
    ReqAccountsInv s ↔ ∀ p ∈ s.requests, (recFind s.accounts p.2.account).isSome = true := by
  simp [ReqAccountsInv, reqAccountsInvB, List.all_eq_true]

lemma inv_of_finPres {w w' : World} (hinv : ReqAccountsInv w.mem) (h : FinPres w w') :
    ReqAccountsInv w'.mem := by
  obtain ⟨_, hacc, _, _, _, _, hmem⟩ := h
  rw [reqAccountsInv_iff] at hinv ⊢
  intro p' hp'
  obtain ⟨p, hp, _, hac, _, _⟩ := hmem p' hp'
  rw [hacc, hac]
  exact hinv p hp

lemma recFind_erase {α : Type} (k : String) (rs : List (String × α)) (k' : String) :
    recFind (recErase k rs) k' = if k' = k then none else recFind rs k' := by
  induction rs with
  | nil => by_cases h : k' = k <;> simp [recErase, recFind, h]
  | cons p rest ih =>
    rw [recErase_cons]
    by_cases hk : p.1 = k
    · rw [if_pos hk, ih]
      by_cases hk' : k' = k
      · rw [if_pos hk', if_pos hk']
      · rw [if_neg hk', if_neg hk', recFind_cons, if_neg (by rw [hk]; exact fun hc => hk' hc.symm)]
    · rw [if_neg hk, recFind_cons, ih, recFind_cons]
      by_cases hp : p.1 = k'
      · rw [if_pos hp]
        by_cases hk' : k' = k
        · exact absurd (hp.trans hk') hk
        · rw [if_neg hk', if_pos hp]
      · rw [if_neg hp]
        by_cases hk' : k' = k
        · rw [if_pos hk', if_pos hk']
        · rw [if_neg hk', if_neg hk', if_neg hp]

lemma any_key_of_mem {α : Type} {rs : List (String × α)} {x : String} :
    (rs.any (fun q => q.1 == x)) = true ↔ ∃ q ∈ rs, q.1 = x := by
  simp [List.any_eq_true, beq_iff_eq]

lemma keysNodupB_recInsert {α : Type} (k : String) (v : α) (rs : List (String × α))
    (h : keysNodupB rs = true) : keysNodupB (recInsert k v rs) = true := by
  induction rs with
  | nil => rfl
  | cons p rest ih =>
    rw [recInsert_cons]
    simp only [keysNodupB, Bool.and_eq_true] at h
    obtain ⟨h1, h2⟩ := h
    by_cases hk : p.1 = k
    · rw [if_pos hk]
      simp only [keysNodupB, Bool.and_eq_true]
      refine ⟨?_, h2⟩
      rw [← hk]
      exact h1
    · rw [if_neg hk]
      simp only [keysNodupB, Bool.and_eq_true]
      refine ⟨?_, ih h2⟩
      cases hany : (recInsert k v rest).any (fun q => q.1 == p.1) with
      | false => simp
      | true =>
        exfalso
        obtain ⟨q, hq, hq1⟩ := any_key_of_mem.mp hany
        rcases mem_recInsert hq with rfl | hqm
        · exact hk hq1.symm
        · have : rest.any (fun q => q.1 == p.1) = true := any_key_of_mem.mpr ⟨q, hqm, hq1⟩
          rw [this] at h1
          simp at h1

lemma all_recInsert {α : Type} (f : String × α → Bool) (k : String) (v : α)
    (rs : List (String × α)) (hall : rs.all f = true) (hf : f (k, v) = true) :
    (recInsert k v rs).all f = true := by
  rw [List.all_eq_true] at *
  intro q hq
  rcases mem_recInsert hq with rfl | h
  · exact hf
  · exact hall q h

lemma wellKeyed_insert (s : KeyringState) (k : String) (r : TrustVaultRequest)
    (hk : r.id = k) (h : wellKeyedB s = true) :
    wellKeyedB { s with requests := recInsert k r s.requests } = true := by
  simp only [wellKeyedB, Bool.and_eq_true] at h ⊢
  exact ⟨all_recInsert _ _ _ _ h.1 (by simp [hk]), keysNodupB_recInsert _ _ _ h.2⟩

lemma wellKeyed_find_id {s : KeyringState} (h : wellKeyedB s = true) {k : String}
    {r : TrustVaultRequest} (hf : recFind s.requests k = some r) : r.id = k := by
  have hm := recFind_mem hf
  simp only [wellKeyedB, Bool.and_eq_true, List.all_eq_true] at h
  have := h.1 (k, r) hm
  exact (beq_iff_eq.mp this).symm

lemma recFind_isSome_of_mem {α : Type} {rs : List (String × α)} {k : String} {x : α}
    (hm : (k, x) ∈ rs) : (recFind rs k).isSome = true := by
  induction rs with
  | nil => simp at hm
  | cons p rest ih =>
    rw [recFind_cons]
    rcases List.mem_cons.mp hm with rfl | hm'
    · simp
    · by_cases hk : p.1 = k
      · simp [hk]
      · rw [if_neg hk]
        exact ih hm'

lemma recFind_of_mem_nodup {α : Type} {rs : List (String × α)}
    (hnd : keysNodupB rs = true) {k : String} {x : α} (hm : (k, x) ∈ rs) :
    recFind rs k = some x := by
  induction rs with
  | nil => simp at hm
  | cons p rest ih =>
    simp only [keysNodupB, Bool.and_eq_true] at hnd
    obtain ⟨h1, h2⟩ := hnd
    rcases List.mem_cons.mp hm with rfl | hm'
    · rw [recFind_cons]
      simp
    · rw [recFind_cons]
      by_cases hk : p.1 = k
      · exfalso
        have : rest.any (fun q => q.1 == p.1) = true :=
          any_key_of_mem.mpr ⟨(k, x), hm', by simp [hk]⟩
        rw [this] at h1
        simp at h1
      · rw [if_neg hk]
        exact ih h2 hm'

lemma not_mem_pendingIds {s : KeyringState} (h : wellKeyedB s = true) {k : String}
    {r : TrustVaultRequest} (hf : recFind s.requests k = some r)
    (hnp : ¬ r.status = RequestStatus.Pending) :
    k ∉ (((s.requests.map (fun p => p.2)).filter
      (fun r => r.status == RequestStatus.Pending)).map (fun r => r.id)) := by
  intro hmem
  simp only [List.mem_map, List.mem_filter] at hmem
  obtain ⟨r2, ⟨hr2m, hr2st⟩, hr2id⟩ := hmem
  obtain ⟨p, hp, hp2⟩ := hr2m
  have hwk := h
  simp only [wellKeyedB, Bool.and_eq_true, List.all_eq_true] at hwk
  have hkey : p.1 = r2.id := by
    have := hwk.1 p hp
    rw [hp2] at this
    simpa [beq_iff_eq] using this
  have hpk : p = (k, r2) := by
    cases p with
    | mk p1 pr =>
      simp only at hkey hp2
      rw [hp2, hkey, hr2id]
  rw [hpk] at hp
  have := recFind_of_mem_nodup hwk.2 hp
  rw [hf] at this
  have hr : r = r2 := by injection this
  rw [hr] at hnp
  exact hnp (by simpa using hr2st)

lemma rtouch_refl (tid : String) (w : World) : RTouch tid w w :=
  fun h => ⟨h, fun _ _ => rfl⟩

lemma rtouch_trans {tid : String} {a b c : World} (h1 : RTouch tid a b)
    (h2 : RTouch tid b c) : RTouch tid a c := by
  intro hwk
  obtain ⟨hb, e1⟩ := h1 hwk
  obtain ⟨hc, e2⟩ := h2 hb
  exact ⟨hc, fun k hk => (e2 k hk).trans (e1 k hk)⟩

lemma rtouch_of_clientPres {tid : String} {w w' : World} (h : ClientPres w w') :
    RTouch tid w w' := by
  intro hwk
  rw [h.1]
  exact ⟨hwk, fun _ _ => rfl⟩

lemma rt_of_cpres {α : Type} {tid : String} {x : KM α} (h : CPres x) : RT tid x :=
  fun w => rtouch_of_clientPres (h w)

lemma rt_bind {α β : Type} {tid : String} {x : KM α} {g : α → KM β}
    (hx : RT tid x) (hg : ∀ a, RT tid (g a)) : RT tid (x >>= g) := by
  intro w
  rw [km_bind_def]
  have hxw := hx w
  cases hres : x w with
  | ok a w' =>
    rw [hres] at hxw
    exact rtouch_trans hxw (hg a w')
  | error e w' =>
    rw [hres] at hxw
    exact hxw

lemma rt_pure {α : Type} (tid : String) (a : α) : RT tid (pure a : KM α) :=
  fun w => rtouch_refl tid w

lemma rt_throw {α : Type} (tid : String) (e : Err) : RT tid (throw e : KM α) :=
  fun w => rtouch_refl tid w

lemma rt_emitEvent (tid : String) (e : KEvent) : RT tid (emitEvent e) :=
  fun w => rtouch_refl tid w

lemma rt_updateRequestStatus (id : String) (status : RequestStatus) :
    RT id (updateRequestStatus id status) := by
  intro w
  unfold updateRequestStatus
  cases hf : recFind w.mem.requests id with
  | none => exact rtouch_refl id w
  | some request =>
    intro hwk
    have hid : request.id = id := wellKeyed_find_id hwk hf
    constructor
    · exact wellKeyed_insert _ _ _ (by simpa using hid) hwk
    · intro k hk
      have : ¬ k = request.id := by rw [hid]; exact hk
      exact recFind_insert_ne _ _ _ _ this

lemma rt_checkAndFinaliseTransaction (env : Env) (req : TrustVaultRequest) :
    RT req.id (checkAndFinaliseTransaction env req) := by
  unfold checkAndFinaliseTransaction
  apply rt_bind (rt_of_cpres (cpres_getTransactionInfoK env req))
  intro info
  by_cases h1 : isFailedStatus info.status = true
  · rw [if_pos h1]
    exact rt_bind (rt_updateRequestStatus _ _) (fun _ => rt_emitEvent _ _)
  · rw [if_neg h1]
    by_cases h2 : (!(isFinalStatus info.status)) = true
    · rw [if_pos h2]
      exact rt_pure _ _
    · rw [if_neg h2]
      cases info.signedTransaction with
      | none => exact rt_throw _ _
      | some st =>
        dsimp only
        exact rt_bind (rt_updateRequestStatus _ _) (fun _ => rt_emitEvent _ _)

lemma rt_checkAndFinalisePersonalSign (env : Env) (req : TrustVaultRequest) :
    RT req.id (checkAndFinalisePersonalSign env req) := by
  unfold checkAndFinalisePersonalSign
  apply rt_bind (rt_of_cpres (cpres_getRequestInfoK env req))
  intro info
  by_cases h1 : (!(isFinalStatus info.status)) = true
  · rw [if_pos h1]
    exact rt_pure _ _
  · rw [if_neg h1]
    cases info.signaturesRaw with
    | none => exact rt_throw _ _
    | some raw =>
      dsimp only
      apply rt_bind (rt_of_cpres (cpres_getPersonalSignature env req raw))
      intro sig
      exact rt_bind (rt_updateRequestStatus _ _) (fun _ => rt_emitEvent _ _)

lemma rt_checkAndFinaliseSignTypedData (env : Env) (req : TrustVaultRequest) (v : String) :
    RT req.id (checkAndFinaliseSignTypedData env req v) := by
  unfold checkAndFinaliseSignTypedData
  apply rt_bind (rt_of_cpres (cpres_getRequestInfoK env req))
  intro info
  by_cases h1 : (!(isFinalStatus info.status)) = true
  · rw [if_pos h1]
    exact rt_pure _ _
  · rw [if_neg h1]
    cases info.signaturesRaw with
    | none => exact rt_throw _ _
    | some raw =>
      dsimp only
      apply rt_bind (rt_of_cpres (cpres_getSignTypedDataSignature env req raw v))
      intro sig
      exact rt_bind (rt_updateRequestStatus _ _) (fun _ => rt_emitEvent _ _)

lemma rt_checkAndFinaliseRequest (env : Env) (req : TrustVaultRequest) :
    RT req.id (checkAndFinaliseRequest env req) := by
  intro w
  unfold checkAndFinaliseRequest
  by_cases h0 : w.mem.trustApiConfiguration = none
  · rw [if_pos h0]
    exact rtouch_refl _ w
  · rw [if_neg h0]
    by_cases h1 : req.method = ethMethodSignTransaction
    · rw [if_pos h1]
      exact rt_checkAndFinaliseTransaction env req w
    · rw [if_neg h1]
      by_cases h2 : req.method = ethMethodPersonalSign
      · rw [if_pos h2]
        exact rt_checkAndFinalisePersonalSign env req w
      · rw [if_neg h2]
        by_cases h3 : req.method = ethMethodSignTypedDataV3
        · rw [if_pos h3]
          exact rt_checkAndFinaliseSignTypedData env req "V3" w
        · rw [if_neg h3]
          by_cases h4 : req.method = ethMethodSignTypedDataV4
          · rw [if_pos h4]
            exact rt_checkAndFinaliseSignTypedData env req "V4" w
          · rw [if_neg h4]
            exact rtouch_refl _ w

lemma rtouch_approveRequest (env : Env) (id : String) (w : World) :
    RTouch id w (resWorld (approveRequest env id w)) := by
  unfold approveRequest
  rw [km_bind_def]
  have hgr : getRequestK id w =
      match recFind w.mem.requests id with
      | none => EStateM.Result.error (Err.requestDoesNotExist id) w
      | some r => EStateM.Result.ok r w := by
    unfold getRequestK
    rfl
  rw [hgr]
  cases hf : recFind w.mem.requests id with
  | none => exact rtouch_refl id w
  | some request =>
    intro hwk
    have hid : request.id = id := wellKeyed_find_id hwk hf
    dsimp only
    rw [km_tryCatch_def]
    have hrt := rt_checkAndFinaliseRequest env request w
    rw [hid] at hrt
    cases hres : checkAndFinaliseRequest env request w with
    | ok a w' =>
      rw [hres] at hrt
      exact hrt hwk
    | error e w' =>
      rw [hres] at hrt
      exact hrt hwk

lemma approveRequest_ok (env : Env) (id : String) (w : World)
    (hid : (recFind w.mem.requests id).isSome = true) :
    isOkR (approveRequest env id w) = true := by
  unfold approveRequest
  rw [km_bind_def]
  have hgr : getRequestK id w =
      match recFind w.mem.requests id with
      | none => EStateM.Result.error (Err.requestDoesNotExist id) w
      | some r => EStateM.Result.ok r w := by
    unfold getRequestK
    rfl
  rw [hgr]
  cases hf : recFind w.mem.requests id with
  | none =>
    rw [hf] at hid
    simp at hid
  | some request =>
    dsimp only
    rw [km_tryCatch_def]
    cases checkAndFinaliseRequest env request w with
    | ok a w' => rfl
    | error e w' => rfl

lemma approveAll_ok (env : Env) (ids : List String) :
    ∀ w, wellKeyedB w.mem = true →
      (∀ id ∈ ids, (recFind w.mem.requests id).isSome = true) →
      isOkR (approveAll env ids w) = true := by
  induction ids with
  | nil =>
    intro w _ _
    rfl
  | cons id rest ih =>
    intro w hwk hids
    unfold approveAll
    rw [km_bind_def]
    have hok := approveRequest_ok env id w (hids id (by simp))
    have hrt := rtouch_approveRequest env id w
    have hfp := fpres_approveRequest env id w
    cases hres : approveRequest env id w with
    | error e w' =>
      rw [hres] at hok
      simp [isOkR] at hok
    | ok a w' =>
      rw [hres] at hrt hfp
      obtain ⟨hwk', _⟩ := hrt hwk
      refine ih w' hwk' ?_
      intro i hi
      exact hfp.2.2.2.2.2.1 i (hids i (by simp [hi]))

lemma approveAll_untouched (env : Env) (ids : List String) :
    ∀ w, wellKeyedB w.mem = true →
      (wellKeyedB (resWorld (approveAll env ids w)).mem = true ∧
        ∀ k, k ∉ ids →
          recFind (resWorld (approveAll env ids w)).mem.requests k =
            recFind w.mem.requests k) := by
  induction ids with
  | nil =>
    intro w hwk
    exact ⟨hwk, fun _ _ => rfl⟩
  | cons id rest ih =>
    intro w hwk
    unfold approveAll
    rw [km_bind_def]
    have hrt := rtouch_approveRequest env id w
    cases hres : approveRequest env id w with
    | error e w' =>
      rw [hres] at hrt
      obtain ⟨hwk', he⟩ := hrt hwk
      exact ⟨hwk', fun k hk => he k (fun hc => hk (by simp [hc]))⟩
    | ok a w' =>
      rw [hres] at hrt
      obtain ⟨hwk', he⟩ := hrt hwk
      obtain ⟨hwk'', he'⟩ := ih w' hwk'
      refine ⟨hwk'', fun k hk => ?_⟩
      have h1 : k ∉ rest := fun hc => hk (by simp [hc])
      have h2 : ¬ k = id := fun hc => hk (by simp [hc])
      exact (he' k h1).trans (he k h2)

lemma ems_of_cpres {α : Type} {x : KM α} (h : CPres x) : EMS x := by
  intro w e w' he
  have := h w
  rw [he] at this
  exact this.1

lemma ems_bind_cpres {α β : Type} {x : KM α} {g : α → KM β}
    (hx : CPres x) (hg : ∀ a, EMS (g a)) : EMS (x >>= g) := by
  intro w e w' he
  rw [km_bind_def] at he
  have hxw := hx w
  cases hres : x w with
  | ok a w1 =>
    rw [hres] at he hxw
    exact (hg a w1 e w' he).trans hxw.1
  | error e1 w1 =>
    rw [hres] at he hxw
    injection he with h1 h2
    rw [← h2]
    exact hxw.1

lemma ems_bind_ne {α β : Type} {x : KM α} {g : α → KM β}
    (hx : EMS x) (hg : ∀ a, NeverErr (g a)) : EMS (x >>= g) := by
  intro w e w' he
  rw [km_bind_def] at he
  cases hres : x w with
  | ok a w1 =>
    rw [hres] at he
    exact absurd he (hg a w1 e w')
  | error e1 w1 =>
    rw [hres] at he
    injection he with h1 h2
    rw [← h2]
    exact hx w e1 w1 hres

lemma ems_pure {α : Type} (a : α) : EMS (pure a : KM α) := by
  intro w e w' he
  rw [km_pure_def] at he
  exact EStateM.Result.noConfusion he

lemma ems_throw {α : Type} (e0 : Err) : EMS (throw e0 : KM α) := by
  intro w e w' he
  rw [km_throw_def] at he
  injection he with h1 h2
  rw [h2]

lemma neverErr_pure {α : Type} (a : α) : NeverErr (pure a : KM α) := by
  intro w e w' he
  rw [km_pure_def] at he
  exact EStateM.Result.noConfusion he

lemma neverErr_emitEvent (ev : KEvent) : NeverErr (emitEvent ev) := by
  intro w e w' he
  exact EStateM.Result.noConfusion he

lemma ems_updateRequestStatus (id : String) (status : RequestStatus) :
    EMS (updateRequestStatus id status) := by
  intro w e w' he
  unfold updateRequestStatus at he
  cases hf : recFind w.mem.requests id with
  | none =>
    rw [hf] at he
    injection he with h1 h2
    rw [h2]
  | some request =>
    rw [hf] at he
    exact EStateM.Result.noConfusion he

lemma ems_checkAndFinaliseTransaction (env : Env) (req : TrustVaultRequest) :
    EMS (checkAndFinaliseTransaction env req) := by
  unfold checkAndFinaliseTransaction
  apply ems_bind_cpres (cpres_getTransactionInfoK env req)
  intro info
  by_cases h1 : isFailedStatus info.status = true
  · rw [if_pos h1]
    exact ems_bind_ne (ems_updateRequestStatus _ _) (fun _ => neverErr_emitEvent _)
  · rw [if_neg h1]
    by_cases h2 : (!(isFinalStatus info.status)) = true
    · rw [if_pos h2]
      exact ems_pure _
    · rw [if_neg h2]
      cases info.signedTransaction with
      | none => exact ems_throw _
      | some st =>
        dsimp only
        exact ems_bind_ne (ems_updateRequestStatus _ _) (fun _ => neverErr_emitEvent _)

lemma ems_checkAndFinalisePersonalSign (env : Env) (req : TrustVaultRequest) :
    EMS (checkAndFinalisePersonalSign env req) := by
  unfold checkAndFinalisePersonalSign
  apply ems_bind_cpres (cpres_getRequestInfoK env req)
  intro info
  by_cases h1 : (!(isFinalStatus info.status)) = true
  · rw [if_pos h1]
    exact ems_pure _
  · rw [if_neg h1]
    cases info.signaturesRaw with
    | none => exact ems_throw _
    | some raw =>
      dsimp only
      apply ems_bind_cpres (cpres_getPersonalSignature env req raw)
      intro sig
      exact ems_bind_ne (ems_updateRequestStatus _ _) (fun _ => neverErr_emitEvent _)

lemma ems_checkAndFinaliseSignTypedData (env : Env) (req : TrustVaultRequest) (v : String) :
    EMS (checkAndFinaliseSignTypedData env req v) := by
  unfold checkAndFinaliseSignTypedData
  apply ems_bind_cpres (cpres_getRequestInfoK env req)
  intro info
  by_cases h1 : (!(isFinalStatus info.status)) = true
  · rw [if_pos h1]
    exact ems_pure _
  · rw [if_neg h1]
    cases info.signaturesRaw with
    | none => exact ems_throw _
    | some raw =>
      dsimp only
      apply ems_bind_cpres (cpres_getSignTypedDataSignature env req raw v)
      intro sig
      exact ems_bind_ne (ems_updateRequestStatus _ _) (fun _ => neverErr_emitEvent _)

lemma ems_checkAndFinaliseRequest (env : Env) (req : TrustVaultRequest) :
    EMS (checkAndFinaliseRequest env req) := by
  intro w e w' he
  unfold checkAndFinaliseRequest at he
  by_cases h0 : w.mem.trustApiConfiguration = none
  · rw [if_pos h0, km_pure_def] at he
    exact EStateM.Result.noConfusion he
  · rw [if_neg h0] at he
    by_cases h1 : req.method = ethMethodSignTransaction
    · rw [if_pos h1] at he
      exact ems_checkAndFinaliseTransaction env req w e w' he
    · rw [if_neg h1] at he
      by_cases h2 : req.method = ethMethodPersonalSign
      · rw [if_pos h2] at he
        exact ems_checkAndFinalisePersonalSign env req w e w' he
      · rw [if_neg h2] at he
        by_cases h3 : req.method = ethMethodSignTypedDataV3
        · rw [if_pos h3] at he
          exact ems_checkAndFinaliseSignTypedData env req "V3" w e w' he
        · rw [if_neg h3] at he
          by_cases h4 : req.method = ethMethodSignTypedDataV4
          · rw [if_pos h4] at he
            exact ems_checkAndFinaliseSignTypedData env req "V4" w e w' he
          · rw [if_neg h4, km_throw_def] at he
            injection he with ha hb
            rw [hb]

lemma nnr_refl (w : World) : NoNewRejected w w := fun _ _ hf _ => hf

lemma nnr_of_mem_eq {w w' : World} (h : w'.mem = w.mem) : NoNewRejected w w' := by
  intro k r hf hr
  rw [h] at hf
  exact hf

lemma nnr_trans {a b c : World} (h1 : NoNewRejected a b) (h2 : NoNewRejected b c) :
    NoNewRejected a c := fun k r hf hr => h1 k r (h2 k r hf hr) hr

lemma nnr_of_cpres {α : Type} {x : KM α} (h : CPres x) : NNR x :=
  fun w => nnr_of_mem_eq (h w).1

lemma nnr_bind {α β : Type} {x : KM α} {g : α → KM β}
    (hx : NNR x) (hg : ∀ a, NNR (g a)) : NNR (x >>= g) := by
  intro w
  rw [km_bind_def]
  have hxw := hx w
  cases hres : x w with
  | ok a w' =>
    rw [hres] at hxw
    exact nnr_trans hxw (hg a w')
  | error e w' =>
    rw [hres] at hxw
    exact hxw

lemma nnr_pure {α : Type} (a : α) : NNR (pure a : KM α) := fun w => nnr_refl w

lemma nnr_throw {α : Type} (e : Err) : NNR (throw e : KM α) := fun w => nnr_refl w

lemma nnr_emitEvent (e : KEvent) : NNR (emitEvent e) := fun w => nnr_refl w

lemma nnr_updateRequestStatus_of_ne (id : String) (status : RequestStatus)
    (hst : ¬ status = RequestStatus.Rejected) : NNR (updateRequestStatus id status) := by
  intro w
  unfold updateRequestStatus
  cases hf : recFind w.mem.requests id with
  | none => exact nnr_refl w
  | some request =>
    dsimp only [resWorld]
    intro k r hfk hr
    by_cases hk : k = request.id
    · rw [hk, recFind_insert_self] at hfk
      injection hfk with hv
      rw [← hv] at hr
      exact absurd hr hst
    · rw [recFind_insert_ne _ _ _ _ hk] at hfk
      exact hfk

lemma nnr_addRequest_of_ne (request : TrustVaultRequest)
    (hst : ¬ request.status = RequestStatus.Rejected) : NNR (addRequest request) := by
  intro w
  unfold addRequest
  dsimp only [resWorld]
  intro k r hfk hr
  by_cases hk : k = request.id
  · rw [hk, recFind_insert_self] at hfk
    injection hfk with hv
    rw [← hv] at hr
    exact absurd hr hst
  · rw [recFind_insert_ne _ _ _ _ hk] at hfk
    exact hfk

lemma nnr_checkAndFinalisePersonalSign (env : Env) (req : TrustVaultRequest) :
    NNR (checkAndFinalisePersonalSign env req) := by
  unfold checkAndFinalisePersonalSign
  apply nnr_bind (nnr_of_cpres (cpres_getRequestInfoK env req))
  intro info
  by_cases h1 : (!(isFinalStatus info.status)) = true
  · rw [if_pos h1]
    exact nnr_pure _
  · rw [if_neg h1]
    cases info.signaturesRaw with
    | none => exact nnr_throw _
    | some raw =>
      dsimp only
      apply nnr_bind (nnr_of_cpres (cpres_getPersonalSignature env req raw))
      intro sig
      exact nnr_bind (nnr_updateRequestStatus_of_ne _ _ (by simp)) (fun _ => nnr_emitEvent _)

lemma nnr_checkAndFinaliseSignTypedData (env : Env) (req : TrustVaultRequest) (v : String) :
    NNR (checkAndFinaliseSignTypedData env req v) := by
  unfold checkAndFinaliseSignTypedData
  apply nnr_bind (nnr_of_cpres (cpres_getRequestInfoK env req))
  intro info
  by_cases h1 : (!(isFinalStatus info.status)) = true
  · rw [if_pos h1]
    exact nnr_pure _
  · rw [if_neg h1]
    cases info.signaturesRaw with
    | none => exact nnr_throw _
    | some raw =>
      dsimp only
      apply nnr_bind (nnr_of_cpres (cpres_getSignTypedDataSignature env req raw v))
      intro sig
      exact nnr_bind (nnr_updateRequestStatus_of_ne _ _ (by simp)) (fun _ => nnr_emitEvent _)

lemma nnr_checkAndFinaliseTransaction_of_ok (env : Env) (req : TrustVaultRequest)
    (w : World) (info : TransactionInfoResponse) (w1 : World)
    (hres : getTransactionInfoK env req w = EStateM.Result.ok info w1)
    (hnf : isFailedStatus info.status = false) :
    NoNewRejected w (resWorld (checkAndFinaliseTransaction env req w)) := by
  unfold checkAndFinaliseTransaction
  rw [km_bind_def, hres]
  have hmem : w1.mem = w.mem := by
    have := cpres_getTransactionInfoK env req w
    rw [hres] at this
    exact this.1
  dsimp only
  rw [hnf]
  simp only [Bool.false_eq_true, if_false]
  by_cases h2 : (!(isFinalStatus info.status)) = true
  · rw [if_pos h2]
    exact nnr_of_mem_eq hmem
  · rw [if_neg h2]
    cases info.signedTransaction with
    | none => exact nnr_of_mem_eq hmem
    | some st =>
      dsimp only
      have hstep :
          NNR ((updateRequestStatus req.id RequestStatus.Signed) >>= fun _ =>
            emitEvent (KEvent.requestApproved req.id
              (ApproveResult.vrs (add0x st.v) (add0x st.r) (add0x st.s)))) :=
        nnr_bind (nnr_updateRequestStatus_of_ne _ _ (by simp)) (fun _ => nnr_emitEvent _)
      exact nnr_trans (nnr_of_mem_eq hmem) (hstep w1)

lemma nnr_submitRequest (env : Env) (request : KeyringRequest) :
    NNR (submitRequest env request) := by
  intro w
  unfold submitRequest
  by_cases h0 : w.mem.trustApiConfiguration = none
  · rw [if_pos h0]
    exact nnr_refl w
  · rw [if_neg h0]
    exact (nnr_bind (nnr_of_cpres (cpres_handleSigningRequest env request.id request.method
      request.params)) (fun tid => nnr_addRequest_of_ne _ (by simp))) w

lemma pendingIds_present {s : KeyringState} (hwk : wellKeyedB s = true) {id : String}
    (hid : id ∈ ((s.requests.map (fun p => p.2)).filter
      (fun r => r.status == RequestStatus.Pending)).map (fun r => r.id)) :
    (recFind s.requests id).isSome = true := by
  simp only [List.mem_map, List.mem_filter] at hid
  obtain ⟨r2, ⟨hr2m, hr2st⟩, hr2id⟩ := hid
  obtain ⟨p, hp, hp2⟩ := hr2m
  simp only [wellKeyedB, Bool.and_eq_true, List.all_eq_true] at hwk
  have hkey : p.1 = r2.id := by
    have := hwk.1 p hp
    rw [hp2] at this
    exact beq_iff_eq.mp this
  have hpk : p = (id, r2) := by
    cases p with
    | mk p1 pr =>
      simp only at hkey hp2
      rw [hp2, hkey, hr2id]
  rw [hpk] at hp
  exact recFind_isSome_of_mem hp

/-- C3 counterexample: approveRequest on an already-Signed request is not
rejected before the remote call: it consumes a scripted remote response
(so a remote query is made), overwrites the request's status with
Rejected when the remote status is Cancelled, and emits a rejection
event. -/
theorem C3_counterexample :
    isOkR (approveRequest demoEnv "r1" c3World) = true ∧
    c3World.script.length = 1 ∧
    (resWorld (approveRequest demoEnv "r1" c3World)).script = [] ∧
    recFind (resWorld (approveRequest demoEnv "r1" c3World)).mem.requests "r1" =
      some (txRequest RequestStatus.Rejected) ∧
    (resWorld (approveRequest demoEnv "r1" c3World)).events =
      [KEvent.requestRejected "r1"] :=
  ⟨rfl, rfl, rfl, rfl, rfl⟩

/-- C3: the terminal-status filter sits in checkPendingRequests, not in
approveRequest: the poll cycle only finalises Pending requests, so from a
well-keyed state any request whose status is not Pending is left exactly
as it was by a poll cycle. -/
theorem C3_amended_thm (env : Env) (w : World) (k : String) (r : TrustVaultRequest)
    (hwk : wellKeyedB w.mem = true)
    (hf : recFind w.mem.requests k = some r)
    (hst : ¬ r.status = RequestStatus.Pending) :
    recFind (resWorld (checkPendingRequests env w)).mem.requests k = some r := by
  unfold checkPendingRequests
  rw [km_bind_def]
  cases hcp : checkProxyUsage w with
  | error e wp =>
    have hmem : wp.mem = w.mem := by
      have := cpres_checkProxyUsage w
      rw [hcp] at this
      exact this.1
    dsimp only [resWorld]
    rw [hmem]
    exact hf
  | ok b wp =>
    have hmem : wp.mem = w.mem := by
      have := cpres_checkProxyUsage w
      rw [hcp] at this
      exact this.1
    dsimp only
    cases b with
    | false =>
      simp only [Bool.not_false, if_pos]
      rw [km_pure_def]
      dsimp only [resWorld]
      rw [hmem]
      exact hf
    | true =>
      simp only [Bool.not_true, Bool.false_eq_true, if_false]
      have hwk' : wellKeyedB wp.mem = true := by rw [hmem]; exact hwk
      obtain ⟨_, huntouched⟩ := approveAll_untouched env
        (((wp.mem.requests.map (fun p => p.2)).filter
          (fun r => r.status == RequestStatus.Pending)).map (fun r => r.id)) wp hwk'
      have hnotin : k ∉ (((wp.mem.requests.map (fun p => p.2)).filter
          (fun r => r.status == RequestStatus.Pending)).map (fun r => r.id)) := by
        rw [hmem]
        exact not_mem_pendingIds hwk hf hst
      rw [huntouched k hnotin, hmem]
      exact hf

/-- C3 witness: a poll cycle over a table holding one Signed request
leaves that request untouched. -/
theorem C3_witness :
    wellKeyedB c3bWorld.mem = true ∧
    recFind c3bWorld.mem.requests "r1" = some (txRequest RequestStatus.Signed) ∧
    ¬ (txRequest RequestStatus.Signed).status = RequestStatus.Pending ∧
    recFind (resWorld (checkPendingRequests demoEnv c3bWorld)).mem.requests "r1" =
      some (txRequest RequestStatus.Signed) :=
  ⟨by decide, rfl, by decide,
    C3_amended_thm demoEnv c3bWorld "r1" (txRequest RequestStatus.Signed)
      (by decide) rfl (by decide)⟩

/-- C7 counterexample: in enhanced mode a failing proxy probe makes the
whole poll cycle throw to its caller before any request is processed: the
error escapes checkPendingRequests, no scripted remote response is
consumed, and the Pending request is left untouched. -/
theorem C7_counterexample :
    isOkR (checkPendingRequests demoEnv c7World) = false ∧
    (resWorld (checkPendingRequests demoEnv c7World)).script = c7World.script ∧
    recFind (resWorld (checkPendingRequests demoEnv c7World)).mem.requests "r1" =
      some (txRequest RequestStatus.Pending) :=
  ⟨rfl, rfl, rfl⟩

/-- C7: amended error isolation of the poll cycle: when the proxy gate
itself returns (in particular always in basic mode), a poll cycle over a
well-keyed table returns normally — per-request finalisation failures are
swallowed — and any finalisation failure leaves the in-memory state, and
so every request's status, unchanged. -/
theorem C7_amended_thm (env : Env) (w : World) (b : Bool) (wp : World)
    (hcp : checkProxyUsage w = EStateM.Result.ok b wp)
    (hwk : wellKeyedB w.mem = true) :
    isOkR (checkPendingRequests env w) = true ∧
    (∀ req e w2, checkAndFinaliseRequest env req w = EStateM.Result.error e w2 →
      w2.mem = w.mem) := by
  constructor
  · unfold checkPendingRequests
    rw [km_bind_def, hcp]
    dsimp only
    cases b with
    | false =>
      simp only [Bool.not_false, if_pos]
      rfl
    | true =>
      simp only [Bool.not_true, Bool.false_eq_true, if_false]
      have hmem : wp.mem = w.mem := by
        have := cpres_checkProxyUsage w
        rw [hcp] at this
        exact this.1
      have hwk' : wellKeyedB wp.mem = true := by rw [hmem]; exact hwk
      refine approveAll_ok env _ wp hwk' ?_
      intro id hid
      exact pendingIds_present hwk' hid
  · intro req e w2 he
    exact ems_checkAndFinaliseRequest env req w e w2 he

/-- C7 witness: a basic-mode poll over one Pending request whose remote
status is still Pending returns normally. -/
theorem C7_witness :
    checkProxyUsage c7bWorld = EStateM.Result.ok true c7bWorld ∧
    wellKeyedB c7bWorld.mem = true ∧
    isOkR (checkPendingRequests demoEnv c7bWorld) = true :=
  ⟨rfl, by decide,
    (C7_amended_thm demoEnv c7bWorld true c7bWorld rfl (by decide)).1⟩

/-- C10: the exposed rejectRequest always throws the not-implemented
error leaving the world untouched although keyring_rejectRequest is an
invocable keyring method, and no operation other than the failed-status
branch of transaction finalisation introduces a Rejected request: the
personal-sign and typed-data finalisers, and submitRequest, never add a
Rejected entry, and transaction finalisation adds none when the remote
status is not a failed status. -/
theorem C10_thm :
    (∀ id w, rejectRequest id w = EStateM.Result.error Err.notImplemented w) ∧
    "keyring_rejectRequest" ∈ metamaskKeyringMethods ∧
    (∀ env req, NNR (checkAndFinalisePersonalSign env req)) ∧
    (∀ env req v, NNR (checkAndFinaliseSignTypedData env req v)) ∧
    (∀ env request, NNR (submitRequest env request)) ∧
    (∀ env req w info w1,
      getTransactionInfoK env req w = EStateM.Result.ok info w1 →
      isFailedStatus info.status = false →
      NoNewRejected w (resWorld (checkAndFinaliseTransaction env req w))) :=
  ⟨fun _ _ => rfl, by decide, nnr_checkAndFinalisePersonalSign,
    nnr_checkAndFinaliseSignTypedData, nnr_submitRequest,
    nnr_checkAndFinaliseTransaction_of_ok⟩

/-- C10 witness: on a concrete run whose remote transaction status is
still Pending, transaction finalisation introduces no Rejected entry. -/
theorem C10_witness :
    getTransactionInfoK demoEnv (txRequest RequestStatus.Pending) c10World =
      EStateM.Result.ok c10Info c10World1 ∧
    isFailedStatus c10Info.status = false ∧
    NoNewRejected c10World
      (resWorld (checkAndFinaliseTransaction demoEnv (txRequest RequestStatus.Pending)
        c10World)) :=
  ⟨rfl, rfl,
    C10_thm.2.2.2.2.2 demoEnv (txRequest RequestStatus.Pending) c10World c10Info
      c10World1 rfl rfl⟩

/-- C1 counterexample: the retry after a successful refresh is not
limited to one: a retried call that again reports invalid-session
triggers another refresh-and-retry cycle, so one invocation makes three
business-call attempts and still returns normally. -/
theorem C1_counterexample :
    isOkR (graphQLRequest 20 (fun _ => "q") demoReqConfig demoCreds c1World) = true ∧
    countBusiness
      (resWorld (graphQLRequest 20 (fun _ => "q") demoReqConfig demoCreds c1World)).trace =
      3 :=
  ⟨rfl, rfl⟩

/-- C1: amended one-cycle law: on an invalid-session response followed by
a refresh returning a complete token, the client records both posts,
replaces the stored credential of the organisation with the refreshed
token, and retries the original call with the new credential — but the
retry is a full recursive call of graphQLRequest, not a once-only
attempt. -/
theorem C1_amended_thm (fuel : Nat) (q : TrustApiToken → String)
    (config : RequestConfiguration) (creds : Credentials) (w : World)
    (tok : TrustApiToken) (rest : List ScriptEntry)
    (hs : w.script = ScriptEntry.ok invalidSessionBody ::
      ScriptEntry.ok (refreshOkBody tok) :: rest)
    (henc : tok.enc.data.isEmpty = false) (hiv : tok.iv.data.isEmpty = false)
    (htag : tok.tag.data.isEmpty = false) :
    graphQLRequest (fuel + 1) q config creds w =
      graphQLRequest fuel q config { trustId := creds.trustId, token := tok }
        { w with
          script := rest,
          trace := w.trace ++ [(PostKind.business, creds.token)] ++
            [(PostKind.refreshCall, creds.token)],
          persisted := { w.persisted with
            trustIdToToken := recInsert creds.trustId tok w.persisted.trustIdToToken } } := by
  have h1 : postStep PostKind.business creds.token w =
      EStateM.Result.ok invalidSessionBody
        { w with
          trace := w.trace ++ [(PostKind.business, creds.token)],
          script := ScriptEntry.ok (refreshOkBody tok) :: rest } := by
    unfold postStep
    rw [hs]
  conv_lhs => rw [graphQLRequest]
  rw [km_bind_def, h1]
  dsimp only [invalidSessionBody]
  rw [if_pos (by decide :
    errorsSignalInvalidSession [{ errorType := some "INVALID_SESSION_TOKEN" }] = true)]
  rw [km_bind_def]
  have h2 : refreshAuthToken creds.token creds.trustId
      { w with
        trace := w.trace ++ [(PostKind.business, creds.token)],
        script := ScriptEntry.ok (refreshOkBody tok) :: rest } =
      EStateM.Result.ok
        (some { enc := some tok.enc, iv := some tok.iv, tag := some tok.tag })
        { w with
          trace := w.trace ++ [(PostKind.business, creds.token)] ++
            [(PostKind.refreshCall, creds.token)],
          script := rest } := by
    unfold refreshAuthToken
    rw [km_bind_def]
    rfl
  rw [h2]
  dsimp only
  rw [if_neg (by simp [jsFalsyStr, henc, hiv, htag] :
    ¬ ((jsFalsyStr (some tok.enc) || jsFalsyStr (some tok.iv) ||
      jsFalsyStr (some tok.tag)) = true))]
  rw [km_bind_def]
  rfl

/-- C1 witness: one concrete cycle of the amended law. -/
theorem C1_witness :
    c1bWorld.script = ScriptEntry.ok invalidSessionBody ::
      ScriptEntry.ok (refreshOkBody demoToken1) :: [ScriptEntry.ok (createOkBody "tv9")] ∧
    demoToken1.enc.data.isEmpty = false ∧
    graphQLRequest 2 (fun _ => "q") demoReqConfig demoCreds c1bWorld =
      graphQLRequest 1 (fun _ => "q") demoReqConfig
        { trustId := demoCreds.trustId, token := demoToken1 }
        { c1bWorld with
          script := [ScriptEntry.ok (createOkBody "tv9")],
          trace := c1bWorld.trace ++ [(PostKind.business, demoCreds.token)] ++
            [(PostKind.refreshCall, demoCreds.token)],
          persisted := { c1bWorld.persisted with
            trustIdToToken := recInsert demoCreds.trustId demoToken1
              c1bWorld.persisted.trustIdToToken } } :=
  ⟨rfl, rfl,
    C1_amended_thm 1 (fun _ => "q") demoReqConfig demoCreds c1bWorld demoToken1
      [ScriptEntry.ok (createOkBody "tv9")] rfl rfl rfl rfl⟩

/-- C2 counterexample: the referencing invariant is not preserved by
every public operation: deleteAccount removes an account while a request
referencing it stays behind, and submitRequest records a request whose
account field references no stored account. -/
theorem C2_counterexample :
    reqAccountsInvB c2World.mem = true ∧
    isOkR (deleteAccount "a1" c2World) = true ∧
    reqAccountsInvB (resWorld (deleteAccount "a1" c2World)).mem = false ∧
    reqAccountsInvB c2bWorld.mem = true ∧
    isOkR (submitRequest demoEnv ghostReq c2bWorld) = true ∧
    reqAccountsInvB (resWorld (submitRequest demoEnv ghostReq c2bWorld)).mem = false :=
  ⟨rfl, rfl, rfl, rfl, rfl, rfl⟩

lemma inv_createAccountCore (trustId address : String) (w : World)
    (hinv : ReqAccountsInv w.mem) :
    ReqAccountsInv (resWorld (createAccountCore trustId address w)).mem := by
  unfold createAccountCore
  dsimp only [resWorld]
  rw [reqAccountsInv_iff] at hinv ⊢
  intro p hp
  exact recFind_insert_isSome _ _ _ _ (hinv p hp)

lemma inv_mapTrustIdToToken (trustId : String) (token : Option TrustApiToken) (w : World)
    (hinv : ReqAccountsInv w.mem) :
    ReqAccountsInv (resWorld (mapTrustIdToToken trustId token w)).mem := by
  unfold mapTrustIdToToken
  cases token with
  | some t => exact hinv
  | none => exact hinv

lemma inv_createAccount (options : CreateAccountOptions) (w : World)
    (hinv : ReqAccountsInv w.mem) :
    ReqAccountsInv (resWorld (createAccount options w)).mem := by
  unfold createAccount
  cases options.name with
  | none => exact hinv
  | some nm =>
    cases options.address with
    | none => exact hinv
    | some address =>
      dsimp only
      by_cases h1 : (!(isValidHexAddress (add0x address))) = true
      · rw [if_pos h1]
        exact hinv
      · rw [if_neg h1]
        by_cases h2 : ((w.mem.accounts.map
            (fun (p : String × KeyringAccount) => p.2.address)).contains address) = true
        · rw [if_pos h2]
          exact hinv
        · rw [if_neg h2]
          cases options.trustId with
          | none => exact hinv
          | some trustId =>
            dsimp only
            rw [km_bind_def]
            cases hm : mapTrustIdToToken trustId options.token w with
            | error e w1 =>
              have := inv_mapTrustIdToToken trustId options.token w hinv
              rw [hm] at this
              exact this
            | ok a w1 =>
              have hw1 : ReqAccountsInv w1.mem := by
                have := inv_mapTrustIdToToken trustId options.token w hinv
                rw [hm] at this
                exact this
              exact inv_createAccountCore trustId address w1 hw1

/-- C2: amended invariant preservation: the polling operations
(checkPendingRequests and approveRequest) and createAccount preserve the
request-references-account invariant; deleteAccount and submitRequest do
not. -/
theorem C2_amended_thm (env : Env) (w : World) (hinv : ReqAccountsInv w.mem) :
    ReqAccountsInv (resWorld (checkPendingRequests env w)).mem ∧
    (∀ id, ReqAccountsInv (resWorld (approveRequest env id w)).mem) ∧
    (∀ options, ReqAccountsInv (resWorld (createAccount options w)).mem) :=
  ⟨inv_of_finPres hinv (fpres_checkPendingRequests env w),
    fun id => inv_of_finPres hinv (fpres_approveRequest env id w),
    fun options => inv_createAccount options w hinv⟩

/-- C2 witness: a concrete poll cycle preserving the invariant. -/
theorem C2_witness :
    reqAccountsInvB c2okWorld.mem = true ∧
    ReqAccountsInv (resWorld (checkPendingRequests demoEnv c2okWorld)).mem :=
  ⟨by decide,
    (C2_amended_thm demoEnv c2okWorld
      ((by decide : reqAccountsInvB c2okWorld.mem = true) :
        ReqAccountsInv c2okWorld.mem)).1⟩

/-- C6: key derivation is deterministic and stateless: a derivation run
returns exactly the key pair computed from the entropy of the salt and
leaves the world untouched, and a second derivation run started from the
world the first one left returns the byte-identical result. -/
theorem C6_thm (env : Env) (salt : String) (w : World) :
    wrapKeyPairOperation env salt (fun p => (pure p : KM EciesKeyPair)) w =
      EStateM.Result.ok (generateEciesKeyPair env (generateEntropy env salt)) w ∧
    wrapKeyPairOperation env salt (fun p => (pure p : KM EciesKeyPair))
      (resWorld (wrapKeyPairOperation env salt (fun p => (pure p : KM EciesKeyPair)) w)) =
      wrapKeyPairOperation env salt (fun p => (pure p : KM EciesKeyPair)) w :=
  ⟨rfl, rfl⟩

/-- C8 counterexample: submission is not atomic on the persisted state:
when the session refresh during a failing submit comes back with an
errors list, no request is recorded but the persisted credential of the
organisation is removed, so the persisted state changed. -/
theorem C8_counterexample :
    isOkR (submitRequest demoEnv c8Req c8World) = false ∧
    (resWorld (submitRequest demoEnv c8Req c8World)).mem.requests = [] ∧
    c8World.persisted.trustIdToToken = [("T", demoToken)] ∧
    (resWorld (submitRequest demoEnv c8Req c8World)).persisted.trustIdToToken = [] :=
  ⟨rfl, rfl, rfl, rfl⟩

/-- C8: amended atomicity: a failing submitRequest records no request —
both the in-memory and the persisted request tables are unchanged — and
surfaces the error, while a successful one records exactly the submitted
request with status Pending and saves it. -/
theorem C8_amended_thm (env : Env) (request : KeyringRequest) (w : World) :
    (∀ e w2, submitRequest env request w = EStateM.Result.error e w2 →
      w2.mem.requests = w.mem.requests ∧ w2.persisted.requests = w.persisted.requests) ∧
    (∀ w2, submitRequest env request w = EStateM.Result.ok () w2 →
      ∃ tvid,
        recFind w2.mem.requests request.id = some
          { id := request.id, account := request.account, method := request.method,
            params := request.params, trustVaultRequestId := tvid,
            status := RequestStatus.Pending } ∧
        w2.persisted = w2.mem) := by
  constructor
  · intro e w2 he
    unfold submitRequest at he
    by_cases h0 : w.mem.trustApiConfiguration = none
    · rw [if_pos h0, km_throw_def] at he
      injection he with h1 h2
      rw [← h2]
      exact ⟨rfl, rfl⟩
    · rw [if_neg h0, km_bind_def] at he
      cases hh : handleSigningRequest env request.id request.method request.params w with
      | error e1 w1 =>
        rw [hh] at he
        injection he with h1 h2
        have hcp := cpres_handleSigningRequest env request.id request.method request.params w
        rw [hh] at hcp
        dsimp only [resWorld] at hcp
        rw [← h2]
        exact ⟨by rw [hcp.1], hcp.2.2.2.1⟩
      | ok tvid w1 =>
        rw [hh] at he
        dsimp only at he
        unfold addRequest at he
        exact EStateM.Result.noConfusion he
  · intro w2 he
    unfold submitRequest at he
    by_cases h0 : w.mem.trustApiConfiguration = none
    · rw [if_pos h0, km_throw_def] at he
      exact EStateM.Result.noConfusion he
    · rw [if_neg h0, km_bind_def] at he
      cases hh : handleSigningRequest env request.id request.method request.params w with
      | error e1 w1 =>
        rw [hh] at he
        exact EStateM.Result.noConfusion he
      | ok tvid w1 =>
        rw [hh] at he
        dsimp only at he
        unfold addRequest at he
        injection he with h1 h2
        refine ⟨tvid, ?_, ?_⟩
        · rw [← h2]
          exact recFind_insert_self _ _ _
        · rw [← h2]

/-- C8 witness: a concrete successful submit records the Pending
request. -/
theorem C8_witness :
    submitRequest demoEnv c8Req c8bWorld =
      EStateM.Result.ok () (resWorld (submitRequest demoEnv c8Req c8bWorld)) ∧
    (∃ tvid,
      recFind (resWorld (submitRequest demoEnv c8Req c8bWorld)).mem.requests c8Req.id =
        some
          { id := c8Req.id, account := c8Req.account, method := c8Req.method,
            params := c8Req.params, trustVaultRequestId := tvid,
            status := RequestStatus.Pending } ∧
      (resWorld (submitRequest demoEnv c8Req c8bWorld)).persisted =
        (resWorld (submitRequest demoEnv c8Req c8bWorld)).mem) :=
  ⟨rfl, (C8_amended_thm demoEnv c8Req c8bWorld).2
    (resWorld (submitRequest demoEnv c8Req c8bWorld)) rfl⟩

/-- C9 counterexample: a refresh that returns incomplete token material,
or that dies in transport, does not remove the stale credential and emits
no session-invalidated notification: it merely throws, leaving the stored
credential and the notice log untouched. -/
theorem C9_counterexample :
    errOfR (graphQLRequest 20 (fun _ => "q") demoReqConfig demoCreds c9World) =
      some Err.refreshIncomplete ∧
    (resWorld (graphQLRequest 20 (fun _ => "q") demoReqConfig demoCreds c9World)).persisted.trustIdToToken = [("T", demoToken)] ∧
    (resWorld (graphQLRequest 20 (fun _ => "q") demoReqConfig demoCreds c9World)).notices = [] ∧
    errOfR (graphQLRequest 20 (fun _ => "q") demoReqConfig demoCreds c9bWorld) =
      some (Err.unreachable "down") ∧
    (resWorld (graphQLRequest 20 (fun _ => "q") demoReqConfig demoCreds c9bWorld)).persisted.trustIdToToken = [("T", demoToken)] ∧
    (resWorld (graphQLRequest 20 (fun _ => "q") demoReqConfig demoCreds c9bWorld)).notices = [] :=
  ⟨rfl, rfl, rfl, rfl, rfl, rfl⟩

/-- C9: amended law: only a refresh response carrying an errors list
removes the stale credential of the organisation and emits the
session-invalidated notices before the step fails with the refresh
error. -/
theorem C9_amended_thm (token : TrustApiToken) (trustId : String) (w : World)
    (errs : List GqlError) (rest : List ScriptEntry)
    (hs : w.script = ScriptEntry.ok { errors := some errs, data := none } :: rest) :
    refreshAuthToken token trustId w =
      EStateM.Result.error (Err.refreshFailed errs)
        { w with
          script := rest,
          trace := w.trace ++ [(PostKind.refreshCall, token)],
          persisted := { w.persisted with
            trustIdToToken := recErase trustId w.persisted.trustIdToToken },
          notices := w.notices ++
            [Notice.invalidSessionDialog trustId,
             Notice.inAppNotify (invalidSessionMessage trustId),
             Notice.nativeNotify (invalidSessionMessage trustId)] } := by
  have h1 : postStep PostKind.refreshCall token w =
      EStateM.Result.ok { errors := some errs, data := none }
        { w with trace := w.trace ++ [(PostKind.refreshCall, token)], script := rest } := by
    unfold postStep
    rw [hs]
  unfold refreshAuthToken
  rw [km_bind_def, h1]
  rfl

/-- C9 witness: the amended law at a concrete refresh-errors response. -/
theorem C9_witness :
    c9cWorld.script = ScriptEntry.ok
      { errors := some [{ errorType := some "SOME_ERROR" }], data := none } :: [] ∧
    refreshAuthToken demoToken "T" c9cWorld =
      EStateM.Result.error (Err.refreshFailed [{ errorType := some "SOME_ERROR" }])
        { c9cWorld with
          script := [],
          trace := c9cWorld.trace ++ [(PostKind.refreshCall, demoToken)],
          persisted := { c9cWorld.persisted with
            trustIdToToken := recErase "T" c9cWorld.persisted.trustIdToToken },
          notices := c9cWorld.notices ++
            [Notice.invalidSessionDialog "T",
             Notice.inAppNotify (invalidSessionMessage "T"),
             Notice.nativeNotify (invalidSessionMessage "T")] } :=
  ⟨rfl, C9_amended_thm demoToken "T" c9cWorld [{ errorType := some "SOME_ERROR" }] [] rfl⟩

end TVS
